import Mathlib

/-!
A verification development for the GitIn repository-mining engine.

The definitions below are shallow embeddings of the Python sources under
`source/` (metrics accumulators, repository processing, the week bucketer)
and `memory_scheduler.py`.  Modelling conventions, used consistently:

* Python `dict`s are insertion-ordered association lists `List (k × v)`;
  `d[k] = v` / `d.get(k, default)` become `updateEntry` / `lookupD`.
* Python floats are modelled as exact rationals `ℚ` (every claim-relevant
  computation here is a sum, a max or a single division, so no rounding
  behaviour is at stake).
* Naive-UTC `datetime` values are integers (minutes for commit timestamps,
  whole days where only the calendar date matters); `timedelta` constants
  are converted to the same unit at the use site.
* Calls into external libraries (Python `re`, `datetime.isocalendar`) are
  modelled as explicit function parameters ("oracles"); concrete theorems
  instantiate them with functions recording the library's actual results
  on the concrete inputs involved, as noted at each instantiation.
-/

/-! ## Generic association-list helpers (Python `dict` model) -/

/-- `d.get(k, dflt)` on an insertion-ordered dict. -/
def lookupD {α β : Type} [DecidableEq α] (l : List (α × β)) (k : α) (dflt : β) : β :=
  match l.lookup k with
  | some v => v
  | none => dflt

/-- `d[k] = f (current value, or dflt if absent)`: update in place, or append a
new binding at the end — exactly the key order a Python dict maintains. -/
def updateEntry {α β : Type} [DecidableEq α] (l : List (α × β)) (k : α) (f : β → β) (dflt : β) :
    List (α × β) :=
  match l with
  | [] => [(k, f dflt)]
  | (k0, v0) :: rest =>
      if k0 = k then (k0, f v0) :: rest else (k0, v0) :: updateEntry rest k f dflt

/-- Sum of the values of a dict with `Nat` values. -/
def valuesSum {α : Type} (l : List (α × Nat)) : Nat :=
  (l.map (·.2)).sum

/-! ## Shared data model (pydriller commits as the engine consumes them) -/

/-- `pydriller.ModificationType`. -/
inductive ChangeType where
  | ADD | COPY | RENAME | DELETE | MODIFY | UNKNOWN
deriving DecidableEq, Repr

/-- One modified file of a commit, with the fields the embedded metrics read.
`new_path`/`old_path` are `Option` because pydriller yields `None` for
deletions/additions respectively; `source_code` is `None` when unavailable. -/
structure ModifiedFile where
  old_path : Option String
  new_path : Option String
  filename : String
  change_type : ChangeType
  added_lines : Nat
  deleted_lines : Nat
  source_code : Option String
deriving DecidableEq, Repr

structure Author where
  name : String
  email : String
deriving DecidableEq, Repr

/-- A pydriller commit, restricted to the fields the embedded code reads.
Timestamps are naive-UTC minutes (`replace(tzinfo=None)` is the identity in
this model).  pydriller commits carry no `issue_tracker_ticket` attribute,
which `BugsMetric.is_bug_fix` probes with `hasattr`; that branch is dead and
therefore not represented. -/
structure Commit where
  hash : String
  msg : String
  author : Author
  author_date : Int
  committer_date : Int
  insertions : Nat
  deletions : Nat
  modified_files : List ModifiedFile
deriving DecidableEq, Repr

/-! ## ChangeSetMetric (src/source/metrics/productivity/change_set.py) -/

/-- Mutable state of `ChangeSetMetric`. -/
structure ChangeSetState where
  file_changes : List (String × Nat)
  commits_file_count : List Nat
deriving DecidableEq, Repr

def ChangeSetState.init : ChangeSetState := ⟨[], []⟩

/-- `ChangeSetMetric.process_modified_file`: bump the per-file change counter. -/
def cs_process_modified_file (s : ChangeSetState) (filename : String) : ChangeSetState :=
  { s with file_changes := updateEntry s.file_changes filename (· + 1) 0 }

/-- `ChangeSetMetric.process_commit`: append `len(commit.modified_files)` and
process each modified file. -/
def cs_process_commit (s : ChangeSetState) (c : Commit) : ChangeSetState :=
  let s := { s with commits_file_count := s.commits_file_count ++ [c.modified_files.length] }
  c.modified_files.foldl (fun s mf => cs_process_modified_file s mf.filename) s

def cs_process_commits (s : ChangeSetState) (cs : List Commit) : ChangeSetState :=
  cs.foldl cs_process_commit s

/-- The snapshot returned by `ChangeSetMetric.get_metrics`: it carries exactly
the keys `max` and `avg` — there is no commit-count field. -/
structure ChangeSetSnap where
  max : Nat
  avg : ℚ
deriving DecidableEq, Repr

/-- `ChangeSetMetric.get_metrics`. -/
def cs_get_metrics (s : ChangeSetState) : ChangeSetSnap :=
  if s.commits_file_count = [] then ⟨0, 0⟩
  else
    { max := s.commits_file_count.foldl Nat.max 0
      avg := (s.commits_file_count.sum : ℚ) / (s.commits_file_count.length : ℚ) }

/-- `ChangeSetMetric.merge_metrics`.  Each snapshot's weight is
`m.get("_count", 1)`; since `get_metrics` never emits a `_count` key, every
weight is the default `1`. -/
def cs_merge_metrics (l : List ChangeSetSnap) : ChangeSetSnap :=
  if l = [] then ⟨0, 0⟩
  else
    let max_val := (l.map (·.max)).foldl Nat.max 0
    let total_sum : ℚ := (l.map (fun m => m.avg * 1)).sum
    let total_count : ℚ := (l.map (fun _ => (1 : ℚ))).sum
    { max := max_val
      avg := if 0 < total_count then total_sum / total_count else 0 }

/-! ## Repository size estimation and the chunked path
(src/source/repo_processing.py, `estimate_repo_size` / `process_repo_directly`) -/

/-- The counting loop of `estimate_repo_size`: iterate the repository's
commits, incrementing a counter, and `break` as soon as the counter reaches
`sample_size`.  `n` is the number of commits the iterator would yield. -/
def estimate_count_loop (sample_size : Nat) : Nat → Nat → Nat
  | 0, acc => acc
  | n + 1, acc =>
      let acc' := acc + 1
      if sample_size ≤ acc' then acc' else estimate_count_loop sample_size n acc'

/-- `estimate_repo_size` (counting part): returns
`(commit_count, should_split)` with `should_split = commit_count >= 500`.
The default `sample_size` at the call in `process_repo_directly` is 100. -/
def estimate_repo_size (total_commits sample_size : Nat) : Nat × Bool :=
  let commit_count := estimate_count_loop sample_size total_commits 0
  (commit_count, decide (500 ≤ commit_count))

/-- The branch condition in `process_repo_directly`:
`if should_split and estimated_commits > 500`. -/
def takes_chunked_path (total_commits sample_size : Nat) : Bool :=
  let (estimated_commits, should_split) := estimate_repo_size total_commits sample_size
  should_split && decide (500 < estimated_commits)

/-- The chunk-count formula of the chunked branch:
`min(4, max(2, estimated_commits // 200))`. -/
def chunk_count (estimated_commits : Nat) : Nat :=
  min 4 (max 2 (estimated_commits / 200))

/-! ## Calendar dates (for `strftime("%Y-%m-%d")`)

Dates are day numbers relative to 1970-01-01 (day 0, a Thursday).
`civilFromDays` is the standard civil-from-days conversion; it is used only
to render concrete day numbers as `YYYY-MM-DD` strings. -/

/-- Convert a day number to `(year, month, day)` (proleptic Gregorian). -/
def civilFromDays (z : Int) : Int × Nat × Nat :=
  let z' := z + 719468
  let era := z'.fdiv 146097
  let doe := (z' - era * 146097).toNat
  let yoe := (doe - doe / 1460 + doe / 36524 - doe / 146096) / 365
  let y := (yoe : Int) + era * 400
  let doy := doe - (365 * yoe + yoe / 4 - yoe / 100)
  let mp := (5 * doy + 2) / 153
  let d := doy - (153 * mp + 2) / 5 + 1
  let m := if mp < 10 then mp + 3 else mp - 9
  (if m ≤ 2 then y + 1 else y, m, d)

/-- Zero-pad a natural number to two digits (`%02d`). -/
def pad2 (n : Nat) : String :=
  if n < 10 then "0" ++ toString n else toString n

/-- Zero-pad a natural number to four digits (`%04d`; all years that occur
here are four-digit). -/
def pad4 (n : Nat) : String :=
  if n < 10 then "000" ++ toString n
  else if n < 100 then "00" ++ toString n
  else if n < 1000 then "0" ++ toString n
  else toString n

/-- `current_date.strftime("%Y-%m-%d")` for a day number. -/
def fmtDay (z : Int) : String :=
  let (y, m, d) := civilFromDays z
  pad4 y.toNat ++ "-" ++ pad2 m ++ "-" ++ pad2 d

/-! ## `generate_weekly_ranges` (src/source/utils.py)

The loop walks `current_date` from `start_date` in 7-day steps
(`week_end = current_date + 6 days`, next `current_date = week_end + 1 day`,
with `week_end` clamped to `end_date`), labelling the `n`-th range
`Week_<n>_<current_date %Y-%m-%d>`.  Day granularity suffices: the label uses
only the date part.  `fuel` bounds the iteration count; the wrapper passes
`(end - start).toNat + 1`, which is enough because every iteration advances
`current_date` by at least one day. -/

def generate_weekly_ranges_go (end_date : Int) : Nat → Int → Nat → List (Int × Int × String)
  | 0, _, _ => []
  | fuel + 1, current_date, week_number =>
      if current_date < end_date then
        let week_end := if end_date < current_date + 6 then end_date else current_date + 6
        let week_label := "Week_" ++ toString week_number ++ "_" ++ fmtDay current_date
        (current_date, week_end, week_label)
          :: generate_weekly_ranges_go end_date fuel (week_end + 1) (week_number + 1)
      else []

/-- `generate_weekly_ranges(start_date, end_date)`: list of
`(week_start, week_end, week_label)` triples. -/
def generate_weekly_ranges (start_date end_date : Int) : List (Int × Int × String) :=
  generate_weekly_ranges_go end_date ((end_date - start_date).toNat + 1) start_date 1

/-- `DeveloperHoursMetric._get_week_key`
(src/source/metrics/timings/developer_hours.py): `f"{year}-W{week:02d}"`,
with `(year, week)` from `date.isocalendar()`.  `isocalendar` is a Python
standard-library call, passed in as the oracle `iso`. -/
def dh_get_week_key (iso : Int → Int × Nat) (date : Int) : String :=
  let (year, week) := iso date
  toString year ++ "-W" ++ pad2 week

/-- Modelled from the spec (reference semantics for the WeekKey claims, not
from the code): the week key of a commit is the date of the *Monday* of its
week, formatted `YYYY-MM-DD`.  Day 0 (1970-01-01) is a Thursday, so
`(z + 3) % 7 = 0` exactly on Mondays. -/
def spec_week_key (z : Int) : String :=
  fmtDay (z - (z + 3).emod 7)

/-! ## Weekly dispatch in `calculate_metrics` (src/source/metrics/aggregator.py)

For each commit the aggregator takes `commit.author_date`, strips its tzinfo
(identity here: timestamps are naive), and scans `weekly_ranges` for the
first `(start_date, end_date, label)` with `start_date <= d <= end_date`,
breaking at the first hit; the commit is then processed by the bucket of
that label, if any. -/

/-- The week-label search loop (lines 147–158 of aggregator.py). -/
def find_week_label (weekly_ranges : List (Int × Int × String)) (commit_date_naive : Int) :
    Option String :=
  (weekly_ranges.find? fun r =>
    decide (r.1 ≤ commit_date_naive) && decide (commit_date_naive ≤ r.2.1)).map (·.2.2)

/-- The weekly-bucket dispatch (lines 165–168): processing a commit bumps the
bucket keyed by its week label, if one was found.  The per-bucket payload is
abstracted to a commit counter, which is all the at-most-one-bucket claim
needs. -/
def weekly_dispatch (weekly_ranges : List (Int × Int × String))
    (buckets : List (String × Nat)) (c : Commit) : List (String × Nat) :=
  match find_week_label weekly_ranges c.author_date with
  | some label => updateEntry buckets label (· + 1) 0
  | none => buckets

/-! ## ContributorsMetric (src/source/metrics/productivity/contributors.py)

File keys are `Option String` because `modified_file.new_path` is `None`
for deletions and Python dicts accept `None` keys. -/

/-- Mutable state of `ContributorsMetric`. -/
structure ContributorsState where
  contributors_by_file : List (Option String × List String)
  lines_by_author : List (Option String × List (String × Nat))
  renamed_files : List (Option String × Option String)
deriving DecidableEq, Repr

def ContributorsState.init : ContributorsState := ⟨[], [], []⟩

/-- Add an element to a Python-`set` modelled as a duplicate-free list. -/
def setAdd {α : Type} [DecidableEq α] (l : List α) (a : α) : List α :=
  if a ∈ l then l else l ++ [a]

/-- `ContributorsMetric.process_modified_file`. -/
def contrib_process_modified_file (s : ContributorsState) (mf : ModifiedFile)
    (author_email : String) : ContributorsState :=
  let filepath := lookupD s.renamed_files mf.new_path mf.new_path
  let renamed :=
    if mf.change_type = ChangeType.RENAME then
      updateEntry s.renamed_files mf.old_path (fun _ => filepath) filepath
    else s.renamed_files
  let lines_authored := mf.added_lines + mf.deleted_lines
  let contributors := updateEntry s.contributors_by_file filepath (fun st => setAdd st author_email) []
  let lines := updateEntry s.lines_by_author filepath
    (fun m => updateEntry m author_email (· + lines_authored) 0) []
  { contributors_by_file := contributors, lines_by_author := lines, renamed_files := renamed }

/-- `ContributorsMetric.process_commit`: `author_email = commit.author.email.strip()`;
the e-mails used in the concrete inputs below have no surrounding whitespace,
so `.strip()` is the identity there. -/
def contrib_process_commit (s : ContributorsState) (c : Commit) : ContributorsState :=
  c.modified_files.foldl (fun s mf => contrib_process_modified_file s mf c.author.email) s

def contrib_process_commits (s : ContributorsState) (cs : List Commit) : ContributorsState :=
  cs.foldl contrib_process_commit s

/-- The snapshot of `ContributorsMetric.get_metrics`: two file-keyed maps. -/
structure ContributorsSnap where
  total : List (Option String × Nat)
  minor : List (Option String × Nat)
deriving DecidableEq, Repr

/-- `ContributorsMetric.get_metrics`: per file with a nonzero line total,
`total = len(contributions)` and `minor` counts the authors whose share is
strictly below 5% (`v / total < 0.05`). -/
def contrib_get_metrics (s : ContributorsState) : ContributorsSnap :=
  { total := s.lines_by_author.filterMap fun e =>
      if valuesSum e.2 = 0 then none else some (e.1, e.2.length)
    minor := s.lines_by_author.filterMap fun e =>
      if valuesSum e.2 = 0 then none
      else some (e.1, (e.2.filter fun av => decide ((av.2 : ℚ) / (valuesSum e.2 : ℚ) < 5 / 100)).length) }

/-- `ContributorsMetric.merge_metrics`: `total` takes the per-file max across
snapshots, `minor` the per-file sum. -/
def contrib_merge_metrics (l : List ContributorsSnap) : ContributorsSnap :=
  if l = [] then ⟨[], []⟩
  else
    let merged_total := l.foldl (fun acc m =>
      m.total.foldl (fun acc fc => updateEntry acc fc.1 (fun v => Nat.max v fc.2) 0) acc) []
    let merged_minor := l.foldl (fun acc m =>
      m.minor.foldl (fun acc fc => updateEntry acc fc.1 (· + fc.2) 0) acc) []
    { total := merged_total, minor := merged_minor }

/-! ## BugsMetric (src/source/metrics/quality/bugs.py) -/

/-- The default bug commit-message patterns, verbatim. -/
def bug_patterns : List String :=
  [ r"fix(?:e[ds])?(?:\s+for)?\s+(?:bug|issue|problem)"
  , r"bug\s+fix(?:e[ds])?"
  , r"resolv(?:e[ds]?|ing)\s+(?:bug|issue|problem)"
  , r"\#\d+"
  , r"bug\s+\#?\d+"
  , r"fix(?:e[ds])?\s+\#\d+"
  , r"patch(?:e[ds])?"
  , r"defect"
  , r"debug" ]

/-- Mutable state of `BugsMetric` (`bug_patterns` is never reassigned in the
engine, so it is kept out of the state). -/
structure BugsState where
  bug_fixing_changed_lines : List (Option String × Nat)
  total_changed_lines : List (Option String × Nat)
  renamed_files : List (Option String × Option String)
deriving DecidableEq, Repr

def BugsState.init : BugsState := ⟨[], [], []⟩

/-- `BugsMetric.is_bug_fix`: lower-case the message and test each pattern with
`re.search(pattern, message, re.IGNORECASE)`.  The regex engine is Python's
`re`, modelled by the oracle `re_search : pattern → message → Bool`; the
lower-casing oracle `lower` models `str.lower`.  (The `issue_tracker_ticket`
branch is dead: pydriller commits have no such attribute.) -/
def bugs_is_bug_fix (re_search : String → String → Bool) (lower : String → String)
    (c : Commit) : Bool :=
  bug_patterns.any fun pat => re_search pat (lower c.msg)

/-- `BugsMetric.process_modified_file`. -/
def bugs_process_modified_file (s : BugsState) (mf : ModifiedFile) (is_bug_fix : Bool) :
    BugsState :=
  let filepath := lookupD s.renamed_files mf.new_path mf.new_path
  let renamed :=
    if mf.change_type = ChangeType.RENAME then
      updateEntry s.renamed_files mf.old_path (fun _ => filepath) filepath
    else s.renamed_files
  let changed_lines := mf.added_lines + mf.deleted_lines
  let total := updateEntry s.total_changed_lines filepath (· + changed_lines) 0
  let bug :=
    if is_bug_fix then updateEntry s.bug_fixing_changed_lines filepath (· + changed_lines) 0
    else s.bug_fixing_changed_lines
  { bug_fixing_changed_lines := bug, total_changed_lines := total, renamed_files := renamed }

/-- `BugsMetric.process_commit`. -/
def bugs_process_commit (re_search : String → String → Bool) (lower : String → String)
    (s : BugsState) (c : Commit) : BugsState :=
  let is_bug_fix := bugs_is_bug_fix re_search lower c
  c.modified_files.foldl (fun s mf => bugs_process_modified_file s mf is_bug_fix) s

/-- The snapshot of `BugsMetric.get_metrics`. -/
structure BugsSnap where
  bug_work_percent_by_file : List (Option String × ℚ)
  overall_bug_work_percent : ℚ
  total_bug_lines : Nat
  total_lines : Nat
deriving DecidableEq, Repr

/-- `BugsMetric.get_metrics`. -/
def bugs_get_metrics (s : BugsState) : BugsSnap :=
  let total_bug_lines := valuesSum s.bug_fixing_changed_lines
  let total_lines := valuesSum s.total_changed_lines
  { bug_work_percent_by_file := s.total_changed_lines.map fun ft =>
      if 0 < ft.2 then
        (ft.1, (((lookupD s.bug_fixing_changed_lines ft.1 0 : Nat) : ℚ) / (ft.2 : ℚ)) * 100)
      else (ft.1, 0)
    overall_bug_work_percent :=
      if 0 < total_lines then ((total_bug_lines : ℚ) / (total_lines : ℚ)) * 100 else 0
    total_bug_lines := total_bug_lines
    total_lines := total_lines }

/-! ## DeveloperHoursMetric sessions
(src/source/metrics/timings/developer_hours.py)

Timestamps are minutes, so the session parameters are
`max_commit_gap = 120`, `min_session_length = 30`,
`default_first_commit_time = 30`, `default_last_commit_time = 15`.
One developer's timeline is modelled; `developer_sessions` is a dict of
independent such timelines. -/

/-- One entry of `developer_sessions[developer]` (only the fields the session
construction reads). -/
structure CommitEntry where
  timestamp : Int
  changes : Nat
deriving DecidableEq, Repr

/-- A session as finalized by `calculate_sessions`: `stop` is the padded end
(source key `end`, a Lean keyword), `duration = stop - start`. -/
structure Session where
  start : Int
  stop : Int
  commits : List CommitEntry
  total_changes : Nat
  duration : Int
deriving DecidableEq, Repr

/-- The in-construction session (before `end += default_last_commit_time` and
the `duration` computation). -/
structure CurSession where
  start : Int
  stop : Int
  commits : List CommitEntry
  total_changes : Nat
deriving DecidableEq, Repr

/-- `sorted(commits, key=lambda x: x["timestamp"])`: Python's `sorted` is a
stable sort by the timestamp key; so is this insertion sort (an element is
inserted after all earlier elements with an equal timestamp). -/
def insertByTime (c : CommitEntry) : List CommitEntry → List CommitEntry
  | [] => [c]
  | d :: ds => if c.timestamp ≤ d.timestamp then c :: d :: ds else d :: insertByTime c ds

def sortByTime : List CommitEntry → List CommitEntry
  | [] => []
  | c :: cs => insertByTime c (sortByTime cs)

/-- Start a new session from a commit:
`{start: t - 30, end: t, commits: [c], total_changes: c.changes}`. -/
def newSession (c : CommitEntry) : CurSession :=
  ⟨c.timestamp - 30, c.timestamp, [c], c.changes⟩

/-- Extend the current session with a commit (gap already checked). -/
def extendSession (cur : CurSession) (c : CommitEntry) : CurSession :=
  { cur with stop := c.timestamp, commits := cur.commits ++ [c],
             total_changes := cur.total_changes + c.changes }

/-- Finalize: `end += 15; duration = end - start`. -/
def finalizeSession (cur : CurSession) : Session :=
  ⟨cur.start, cur.stop + 15, cur.commits, cur.total_changes, cur.stop + 15 - cur.start⟩

/-- The session-building loop of `calculate_sessions`, over the sorted
commits. -/
def buildSessions : Option CurSession → List CommitEntry → List Session
  | none, [] => []
  | some cur, [] => [finalizeSession cur]
  | none, c :: rest => buildSessions (some (newSession c)) rest
  | some cur, c :: rest =>
      if c.timestamp - cur.stop ≤ 120 then
        buildSessions (some (extendSession cur c)) rest
      else
        finalizeSession cur :: buildSessions (some (newSession c)) rest

/-- `calculate_sessions` for one developer's commit list. -/
def calculate_sessions (commits : List CommitEntry) : List Session :=
  buildSessions none (sortByTime commits)

/-- The minimum-session-length filter at the top of
`_process_sessions_to_weekly_stats`: sessions with
`duration < min_session_length` are skipped. -/
def sessions_kept (sessions : List Session) : List Session :=
  sessions.filter fun s => !decide (s.duration < 30)

/-- The per-week `commits` accumulation of `_process_sessions_to_weekly_stats`:
each kept session bumps `weekly_hours[week_key(session.start)].commits` by
`len(session.commits)`.  `week_key` composes `_get_week_key` with the
`isocalendar` oracle and is passed as a function. -/
def weekly_commit_counts (week_key : Int → String) (sessions : List Session) :
    List (String × Nat) :=
  (sessions_kept sessions).foldl
    (fun acc s => updateEntry acc (week_key s.start) (· + s.commits.length) 0) []

/-! ## MemoryAwareScheduler priority queue (src/memory_scheduler.py)

`submit` puts `(-priority, job)` into a `queue.PriorityQueue`, whose heap is
CPython's `heapq`; workers `get` (heappop) entries.  `Job` is a `@dataclass`
without `order=True`: it has `__eq__` (field-wise) but no `__lt__`, so
comparing two distinct jobs raises `TypeError`.  `PyJob` models the fields
relevant to ordering and identity; `func/args/kwargs/...` only contribute to
`__eq__`, which the distinct `id` already decides.  `pyLt` models Python's
comparison of two `(int, Job)` tuples: ints are compared first; on a tie the
jobs are compared — `==` succeeds, `<` raises (`Except.error ()`). -/

structure PyJob where
  id : String
  priority : Int
deriving DecidableEq, Repr, Inhabited

/-- A heap entry `(-priority, job)`. -/
abbrev HeapEntry := Int × PyJob

/-- `submit`: the entry pushed for a job is `(-priority, job)`. -/
def submit_entry (j : PyJob) : HeapEntry := (-j.priority, j)

/-- Python `<` on `(int, Job)` tuples: `TypeError` is `Except.error ()`. -/
def pyLt (a b : HeapEntry) : Except Unit Bool :=
  if a.1 = b.1 then
    if a.2 = b.2 then Except.ok false else Except.error ()
  else Except.ok (decide (a.1 < b.1))

/-- `heapq._siftdown(heap, startpos, pos)` with `newitem = heap[pos]` held in
a register: walk up while `newitem < parent`, moving parents down.  `fuel`
bounds the loop; callers pass `pos + 1`, which suffices because `pos`
strictly decreases (see `heappush_ok`).  On fuel exhaustion the loop-exit
write is performed (the invariant-carrying theorems never reach it). -/
def siftdown_go (startpos : Nat) (newitem : HeapEntry) :
    Nat → List HeapEntry → Nat → Except Unit (List HeapEntry)
  | 0, heap, pos => Except.ok (heap.set pos newitem)
  | fuel + 1, heap, pos =>
      if startpos < pos then
        let parentpos := (pos - 1) / 2
        let parent := heap.getD parentpos default
        match pyLt newitem parent with
        | Except.error e => Except.error e
        | Except.ok true => siftdown_go startpos newitem fuel (heap.set pos parent) parentpos
        | Except.ok false => Except.ok (heap.set pos newitem)
      else Except.ok (heap.set pos newitem)

/-- `heapq.heappush`: append, then sift down from the last position. -/
def heappush (heap : List HeapEntry) (item : HeapEntry) : Except Unit (List HeapEntry) :=
  siftdown_go 0 item (heap.length + 1) (heap ++ [item]) heap.length

/-- `heapq._siftup(heap, pos)` (called with the tail element written at the
root): walk down moving the smaller child up, then sift the new item back
down.  `fuel` bounds the loop; callers pass `endpos`, which suffices because
`pos` strictly increases.  On fuel exhaustion the loop-exit writes are
performed. -/
def siftup_go (endpos startpos : Nat) (newitem : HeapEntry) :
    Nat → List HeapEntry → Nat → Except Unit (List HeapEntry)
  | 0, heap, pos =>
      match siftdown_go startpos newitem (pos + 1) (heap.set pos newitem) pos with
      | Except.error e => Except.error e
      | Except.ok h => Except.ok h
  | fuel + 1, heap, pos =>
      let childpos := 2 * pos + 1
      if childpos < endpos then
        let rightpos := childpos + 1
        if rightpos < endpos then
          match pyLt (heap.getD childpos default) (heap.getD rightpos default) with
          | Except.error e => Except.error e
          | Except.ok lt =>
              let cp := if lt then childpos else rightpos
              siftup_go endpos startpos newitem fuel
                (heap.set pos (heap.getD cp default)) cp
        else
          siftup_go endpos startpos newitem fuel
            (heap.set pos (heap.getD childpos default)) childpos
      else
        match siftdown_go startpos newitem (pos + 1) (heap.set pos newitem) pos with
        | Except.error e => Except.error e
        | Except.ok h => Except.ok h

/-- `heapq.heappop`: pop the last element; if the heap is still nonempty,
write it at the root and sift up.  The worker loop only pops from a nonempty
queue (`queue.get` blocks otherwise), so the empty case returns `none`. -/
def heappop (heap : List HeapEntry) : Except Unit (Option (HeapEntry × List HeapEntry)) :=
  match heap.getLast? with
  | none => Except.ok none
  | some lastelt =>
      let rest := heap.dropLast
      match rest with
      | [] => Except.ok (some (lastelt, []))
      | returnitem :: _ =>
          match siftup_go rest.length 0 lastelt rest.length (rest.set 0 lastelt) 0 with
          | Except.error e => Except.error e
          | Except.ok h => Except.ok (some (returnitem, h))

/-- "All jobs simultaneously present have pairwise distinct priorities", read
on heap entries: distinct entries never tie on the first tuple component. -/
def distinctPriorities (l : List HeapEntry) : Prop :=
  ∀ a ∈ l, ∀ b ∈ l, a ≠ b → a.1 ≠ b.1

/-! ## Python string primitives

All scanning works on `String.data` (lists of characters), which the kernel
evaluates directly.  `pyLower` implements `str.lower` for ASCII, which covers
every string these metrics compare. -/

/-- Python `str.strip()` whitespace class (space, tab, LF, CR, VT, FF). -/
def pyWs (c : Char) : Bool :=
  c = ' ' || c = (Char.ofNat 9) || c = (Char.ofNat 10) || c = (Char.ofNat 13)
    || c = (Char.ofNat 11) || c = (Char.ofNat 12)

/-- `line.strip()` on a character list. -/
def pyStripL (l : List Char) : List Char :=
  ((l.dropWhile pyWs).reverse.dropWhile pyWs).reverse

/-- `line.strip()`. -/
def pyStrip (s : String) : String := String.mk (pyStripL s.data)

def pyLowerChar (c : Char) : Char :=
  if 'A' ≤ c && c ≤ 'Z' then Char.ofNat (c.toNat + 32) else c

/-- `str.lower()` (ASCII). -/
def pyLower (s : String) : String := String.mk (s.data.map pyLowerChar)

/-- `str.rstrip(':;')`. -/
def rstripColonSemi (s : String) : String :=
  String.mk ((s.data.reverse.dropWhile fun c => c = ':' || c = ';').reverse)

/-- `needle in hay` (substring test). -/
def containsSub (hay needle : List Char) : Bool :=
  (List.range (hay.length + 1)).any fun i => needle.isPrefixOf (hay.drop i)

def strContains (hay needle : String) : Bool := containsSub hay.data needle.data

/-- `hay.find(needle)` for a needle known to occur (callers guard with
`containsSub`); returns `hay.length` when absent. -/
def findSub (hay needle : List Char) : Nat :=
  ((List.range (hay.length + 1)).find? fun i => needle.isPrefixOf (hay.drop i)).getD hay.length

/-- `s.split(c)` for a single-character separator. -/
def splitCh (c : Char) : List Char → List (List Char)
  | [] => [[]]
  | a :: rest =>
      let r := splitCh c rest
      if a = c then [] :: r
      else
        match r with
        | [] => [[a]]
        | g :: gs => (a :: g) :: gs

/-- `source_code.split("\n")`. -/
def splitLines (s : String) : List String := (splitCh (Char.ofNat 10) s.data).map String.mk

/-- `s.count(c)` for a character. -/
def countChar (s : String) (c : Char) : Nat := s.data.count c

/-- `filename.split(".")[-1]`. -/
def lastDotComponent (filename : String) : String :=
  String.mk ((splitCh '.' filename.data).getLastD [])

/-- A single-quote character as a string (several comment-marker table
entries below contain it). -/
def squote : String := String.mk [Char.ofNat 39]

/-- `[a-zA-Z0-9]` (ASCII, as in the `re` patterns involved). -/
def isAsciiAlnum (c : Char) : Bool :=
  ('a' ≤ c && c ≤ 'z') || ('A' ≤ c && c ≤ 'Z') || ('0' ≤ c && c ≤ '9')

def isAsciiAlpha (c : Char) : Bool :=
  ('a' ≤ c && c ≤ 'z') || ('A' ≤ c && c ≤ 'Z')

/-! ## QualityCornerstonesMetric (src/source/metrics/quality/test_doc_pct.py) -/

/-- `single_line_comments` of `_count_doc_lines` (extension → marker). -/
def single_line_comments : List (String × String) :=
  [ ("ada", "--"), ("adb", "--"), ("applescript", "--"), ("as", "//"), ("asm", ";")
  , ("asp", squote), ("aspx", squote), ("au3", ";"), ("bas", squote), ("bat", "REM")
  , ("c", "//"), ("c++", "//"), ("cc", "//"), ("cfc", "//"), ("cfm", "//")
  , ("clj", ";"), ("cls", "%"), ("cmd", "REM"), ("coffee", "#"), ("cpp", "//")
  , ("cs", "//"), ("css", "//")
  , ("d", "//"), ("dart", "//"), ("elm", "--"), ("erl", "%"), ("ex", "#")
  , ("exs", "#"), ("f", "!"), ("f90", "!"), ("for", "!"), ("fs", "//")
  , ("fsi", "//"), ("fsx", "//"), ("go", "//"), ("groovy", "//"), ("h", "//")
  , ("hpp", "//"), ("hs", "--"), ("htm", "<!--"), ("html", "<!--"), ("hx", "//")
  , ("java", "//"), ("jl", "#"), ("js", "//"), ("jsx", "//"), ("kt", "//")
  , ("kts", "//"), ("less", "//"), ("lisp", ";"), ("lua", "--"), ("m", "%")
  , ("markdown", "<!--"), ("md", "<!--"), ("nim", "#"), ("nix", "#"), ("ocaml", "(*")
  , ("pas", "//"), ("php", "//"), ("pl", "#"), ("pm", "#"), ("ps1", "#")
  , ("psm1", "#"), ("py", "#"), ("pyw", "#"), ("r", "#"), ("rb", "#")
  , ("rs", "//"), ("s", ";"), ("sass", "//"), ("scala", "//"), ("scm", ";")
  , ("scss", "//"), ("sh", "#"), ("sql", "--"), ("swift", "//"), ("tcl", "#")
  , ("tex", "%"), ("ts", "//"), ("tsx", "//"), ("vb", squote), ("vba", squote)
  , ("vbs", squote), ("vhdl", "--"), ("xsl", "<!--"), ("yaml", "#"), ("yml", "#")
  , ("zig", "//") ]

/-- `multi_line_comments` (extension → (start, end)). -/
def multi_line_comments : List (String × String × String) :=
  [ ("c", "/*", "*/"), ("c++", "/*", "*/"), ("cc", "/*", "*/"), ("cpp", "/*", "*/")
  , ("cs", "/*", "*/"), ("css", "/*", "*/"), ("d", "/*", "*/"), ("dart", "/*", "*/")
  , ("go", "/*", "*/"), ("groovy", "/*", "*/"), ("h", "/*", "*/"), ("hpp", "/*", "*/")
  , ("htm", "<!--", "-->"), ("html", "<!--", "-->"), ("hx", "/*", "*/")
  , ("java", "/*", "*/"), ("js", "/*", "*/"), ("jsx", "/*", "*/"), ("kt", "/*", "*/")
  , ("kts", "/*", "*/"), ("less", "/*", "*/"), ("lua", "--[[", "]]")
  , ("markdown", "<!--", "-->"), ("md", "<!--", "-->"), ("nim", "#[", "]#")
  , ("ocaml", "(*", "*)"), ("php", "/*", "*/"), ("ps1", "<#", "#>")
  , ("psm1", "<#", "#>"), ("py", "\"\"\"", "\"\"\""), ("rs", "/*", "*/")
  , ("sass", "/*", "*/"), ("scala", "/*", "*/"), ("scss", "/*", "*/")
  , ("sql", "/*", "*/"), ("swift", "/*", "*/"), ("ts", "/*", "*/")
  , ("tsx", "<!--", "-->"), ("xsl", "<!--", "-->") ]

/-- A left/right curly brace as strings (kept out of string literals). -/
def lcurly : String := String.mk [Char.ofNat 123]

def rcurly : String := String.mk [Char.ofNat 125]

/-- `alt_multi_line_comments`. -/
def alt_multi_line_comments : List (String × String × String) :=
  [ ("py", squote ++ squote ++ squote, squote ++ squote ++ squote)
  , ("ruby", "=begin", "=end"), ("perl", "=pod", "=cut"), ("jl", "#=", "=#")
  , ("r", squote, squote), ("hs", lcurly ++ "-", "-" ++ rcurly)
  , ("clj", "(comment", ")"), ("coffee", "###", "###") ]

/-- `doc_comment_styles`: the Python dict literal assigns `cs` twice; the
second assignment (`("///", "")`) wins, which is the value recorded here. -/
def doc_comment_styles : List (String × String × String) :=
  [ ("java", "/**", "*/"), ("js", "/**", "*/"), ("ts", "/**", "*/")
  , ("jsx", "/**", "*/"), ("tsx", "/**", "*/"), ("c", "/**", "*/")
  , ("cpp", "/**", "*/"), ("cc", "/**", "*/"), ("h", "/**", "*/")
  , ("hpp", "/**", "*/"), ("cs", "///", ""), ("php", "/**", "*/")
  , ("scala", "/**", "*/"), ("kt", "/**", "*/"), ("kts", "/**", "*/")
  , ("groovy", "/**", "*/"), ("rs", "///", ""), ("swift", "///", "")
  , ("py", "\"\"\"", "\"\"\""), ("pyw", "\"\"\"", "\"\"\"")
  , ("r", "#" ++ squote, ""), ("go", "//", "") ]

/-- Scanner state of the `_count_doc_lines` line loop. -/
structure DocScanState where
  in_multi : Bool
  in_doc : Bool
  cur_multi_end : Option String
  cur_doc_end : Option String
  count : Nat
deriving DecidableEq, Repr

/-- One iteration of the `_count_doc_lines` loop.  `cur_multi_end.getD ""`
models a `None` marker (the source would raise there; the state machine never
reaches it because `in_multi` implies a marker is set). -/
def count_doc_lines_line (single : Option String) (multi docst alt : Option (String × String))
    (st : DocScanState) (line : String) : DocScanState :=
  let line_strip := pyStripL line.data
  let step1 :=
    if st.in_multi then
      let st := { st with count := st.count + 1 }
      let st :=
        if containsSub line.data (st.cur_multi_end.getD "").data then
          { st with in_multi := false, cur_multi_end := none }
        else st
      (st, true)
    else if st.in_doc then
      let st := { st with count := st.count + 1 }
      let st :=
        match st.cur_doc_end with
        | some de =>
            if de ≠ "" && containsSub line.data de.data then
              { st with in_doc := false, cur_doc_end := none }
            else st
        | none => st
      (st, true)
    else (st, false)
  let st := step1.1
  if step1.2 then st
  else
    let doc_hit := match docst with
      | some (ds, _) => ds ≠ "" && containsSub line_strip ds.data
      | none => false
    let multi_hit := match multi with
      | some (ms, _) => ms ≠ "" && containsSub line_strip ms.data
      | none => false
    let alt_hit := match alt with
      | some (as0, _) => as0 ≠ "" && containsSub line_strip as0.data
      | none => false
    let single_hit := match single with
      | some sc => sc ≠ "" && sc.data.isPrefixOf line_strip
      | none => false
    if doc_hit then
      { st with in_doc := true, cur_doc_end := docst.map (·.2), count := st.count + 1 }
    else if multi_hit then
      match multi with
      | some (ms, me) =>
          let after := line_strip.drop (findSub line_strip ms.data + ms.data.length)
          if containsSub after me.data then { st with count := st.count + 1 }
          else { st with in_multi := true, cur_multi_end := some me, count := st.count + 1 }
      | none => st
    else if alt_hit then
      match alt with
      | some (as0, ae) =>
          let after := line_strip.drop (findSub line_strip as0.data + as0.data.length)
          if containsSub after ae.data then { st with count := st.count + 1 }
          else { st with in_multi := true, cur_multi_end := some ae, count := st.count + 1 }
      | none => st
    else if single_hit then { st with count := st.count + 1 }
    else st

/-- `QualityCornerstonesMetric._count_doc_lines`. -/
def count_doc_lines (filename source_code : String) : Nat :=
  let file_ext := if filename.data.contains '.' then pyLower (lastDotComponent filename) else ""
  if source_code = "" || file_ext = "" then 0
  else
    let single := single_line_comments.lookup file_ext
    let multi := multi_line_comments.lookup file_ext
    let docst := doc_comment_styles.lookup file_ext
    let alt := alt_multi_line_comments.lookup file_ext
    ((splitLines source_code).foldl (count_doc_lines_line single multi docst alt)
      ⟨false, false, none, none, 0⟩).count

/-- Per-file record in `QualityCornerstonesMetric.file_stats`. -/
structure QCFileStat where
  is_test : Bool
  is_doc : Bool
  lines : Nat
  doc_lines : Nat
  test_lines : Nat
deriving DecidableEq, Repr

/-- Mutable state of `QualityCornerstonesMetric`. -/
structure QCState where
  test_files : Nat
  test_lines : Nat
  doc_files : Nat
  doc_lines : Nat
  total_files : Nat
  total_lines : Nat
  file_stats : List (String × QCFileStat)
deriving DecidableEq, Repr

def QCState.init : QCState := ⟨0, 0, 0, 0, 0, 0, []⟩

/-- `_is_test_file` / `_is_doc_file` run Python `re.match` over two fixed
pattern lists; the regex engine is external, so the two classifiers are
oracle parameters.  Concrete theorems instantiate them with the actual
`re` results on the filenames they use. -/
structure RegexEnv where
  is_test_file : String → Bool
  is_doc_file : String → Bool

/-- `QualityCornerstonesMetric.process_modified_file`.  Byte decoding and the
exception fallbacks all normalise `source_code` to a string; `None` becomes
`""`. -/
def qc_process_modified_file (env : RegexEnv) (s : QCState) (filename : String)
    (mf : ModifiedFile) : QCState :=
  let s :=
    if (s.file_stats.lookup filename).isSome then s
    else
      let it := env.is_test_file filename
      let idoc := env.is_doc_file filename
      { s with
        file_stats := s.file_stats ++ [(filename, ⟨it, idoc, 0, 0, 0⟩)]
        total_files := s.total_files + 1
        test_files := s.test_files + (if it then 1 else 0)
        doc_files := s.doc_files + (if idoc then 1 else 0) }
  let stat := lookupD s.file_stats filename ⟨false, false, 0, 0, 0⟩
  let source_code := mf.source_code.getD ""
  let source_lines := if source_code ≠ "" then countChar source_code (Char.ofNat 10) + 1 else 0
  let s :=
    { s with
      file_stats := updateEntry s.file_stats filename
        (fun st => { st with lines := source_lines }) ⟨false, false, 0, 0, 0⟩
      total_lines := s.total_lines + source_lines }
  let s :=
    if stat.is_test then
      { s with
        test_lines := s.test_lines + source_lines
        file_stats := updateEntry s.file_stats filename
          (fun st => { st with test_lines := source_lines }) ⟨false, false, 0, 0, 0⟩ }
    else s
  if stat.is_doc then
    { s with
      doc_lines := s.doc_lines + source_lines
      file_stats := updateEntry s.file_stats filename
        (fun st => { st with doc_lines := source_lines }) ⟨false, false, 0, 0, 0⟩ }
  else if source_code ≠ "" then
    let doc_line_count := count_doc_lines filename source_code
    { s with
      doc_lines := s.doc_lines + doc_line_count
      file_stats := updateEntry s.file_stats filename
        (fun st => { st with doc_lines := doc_line_count }) ⟨false, false, 0, 0, 0⟩ }
  else
    { s with
      file_stats := updateEntry s.file_stats filename
        (fun st => { st with doc_lines := 0 }) ⟨false, false, 0, 0, 0⟩ }

/-- `QualityCornerstonesMetric.process_commit`. -/
def qc_process_commit (env : RegexEnv) (s : QCState) (c : Commit) : QCState :=
  c.modified_files.foldl (fun s mf => qc_process_modified_file env s mf.filename mf) s

structure Coverage where
  files : Nat
  lines : Nat
  percent : ℚ
deriving DecidableEq, Repr

/-- The snapshot of `QualityCornerstonesMetric.get_metrics`. -/
structure QCSnap where
  test_coverage : Coverage
  doc_coverage : Coverage
  total_files : Nat
  total_lines : Nat
  quality_score : ℚ
deriving DecidableEq, Repr

/-- `QualityCornerstonesMetric.get_metrics`. -/
def qc_get_metrics (s : QCState) : QCSnap :=
  let test_percent : ℚ :=
    if 0 < s.total_lines then (s.test_lines : ℚ) / (s.total_lines : ℚ) * 100 else 0
  let doc_percent : ℚ :=
    if 0 < s.total_lines then (s.doc_lines : ℚ) / (s.total_lines : ℚ) * 100 else 0
  { test_coverage := ⟨s.test_files, s.test_lines, test_percent⟩
    doc_coverage := ⟨s.doc_files, s.doc_lines, doc_percent⟩
    total_files := s.total_files
    total_lines := s.total_lines
    quality_score := (test_percent + doc_percent) / 2 }

/-! ## MeaningfulCodeMetric (src/source/metrics/quality/meaningful_code.py) -/

/-- `ext_to_lang` of `_get_language_from_filename` (extensions are lower-cased
before lookup, so the upper-case `R`/`Rmd` entries are unreachable but kept). -/
def ext_to_lang : List (String × String) :=
  [ ("apex", "apex"), ("cls", "apex"), ("trigger", "apex")
  , ("astro", "astro")
  , ("c", "c"), ("h", "c")
  , ("cpp", "cpp"), ("cxx", "cpp"), ("cc", "cpp"), ("c++", "cpp")
  , ("hpp", "cpp"), ("hxx", "cpp"), ("hh", "cpp"), ("h++", "cpp")
  , ("cs", "csharp"), ("csx", "csx"), ("cshtml", "cshtml")
  , ("css", "css"), ("scss", "scss"), ("sass", "scss")
  , ("clj", "clojure"), ("cljs", "clojurescript"), ("cljc", "clojure"), ("edn", "clojure")
  , ("dart", "dart"), ("elm", "elm")
  , ("erb", "erb"), ("html.erb", "erb")
  , ("erl", "erlang"), ("hrl", "erlang")
  , ("haml", "haml")
  , ("hs", "haskell"), ("lhs", "haskell")
  , ("go", "go")
  , ("idl", "idl"), ("pro", "idl")
  , ("java", "java")
  , ("js", "javascript"), ("mjs", "javascript"), ("cjs", "javascript"), ("jsx", "jsx")
  , ("jelly", "jelly")
  , ("json", "json"), ("jsonc", "json")
  , ("md", "markdown"), ("markdown", "markdown"), ("mdown", "markdown")
  , ("mkd", "markdown"), ("mkdown", "markdown")
  , ("ml", "ocaml"), ("mli", "ocaml")
  , ("m", "objc"), ("mm", "objc")
  , ("pas", "pascal"), ("pp", "pascal"), ("inc", "pascal")
  , ("php", "php"), ("phtml", "php"), ("php3", "php"), ("php4", "php"), ("php5", "php")
  , ("pl", "perl"), ("pm", "perl"), ("perl", "perl")
  , ("py", "python"), ("pyw", "python"), ("pyi", "python")
  , ("r", "r"), ("R", "r"), ("rmd", "r"), ("Rmd", "r")
  , ("rb", "ruby"), ("rbw", "ruby")
  , ("rs", "rust")
  , ("scala", "scala"), ("sc", "scala")
  , ("sh", "shell"), ("bash", "shell"), ("zsh", "shell"), ("fish", "shell")
  , ("ksh", "shell"), ("csh", "shell"), ("tcsh", "shell")
  , ("sql", "sql"), ("psql", "sql"), ("mysql", "sql")
  , ("swift", "swift")
  , ("ts", "typescript"), ("tsx", "tsx")
  , ("vb", "vb"), ("vbs", "vb"), ("vba", "vb"), ("vbhtml", "vbhtml")
  , ("xml", "xml"), ("xsl", "xml"), ("xslt", "xml"), ("xsd", "xml")
  , ("yaml", "yaml"), ("yml", "yaml") ]

/-- `MeaningfulCodeMetric._get_language_from_filename`. -/
def mc_get_language_from_filename (filename : String) : String :=
  if ¬ filename.data.contains '.' then "unknown"
  else
    let ext := pyLower (lastDotComponent filename)
    if ".html.erb".data.isSuffixOf filename.data then "erb"
    else if ".cshtml".data.isSuffixOf filename.data then "cshtml"
    else if ".vbhtml".data.isSuffixOf filename.data then "vbhtml"
    else lookupD ext_to_lang ext "unknown"

/-- `language_keywords` of `_is_only_keywords_or_braces` (the `css`/`scss`
entries are empty Python dict literals, hence empty key sets). -/
def language_keywords : List (String × List String) :=
  [ ("apex", ["else", "catch", "finally", "try", "if", "for", "while", "switch", "case:", "default:", "return", "break", "continue", "do"])
  , ("astro", ["else", "catch", "finally", "try", "if", "for", "while", "switch", "case:", "default:", "return", "break", "continue"])
  , ("c", ["else", "if", "for", "while", "switch", "case:", "default:", "return", "break", "continue", "do"])
  , ("cpp", ["else", "catch", "try", "if", "for", "while", "switch", "case:", "default:", "return", "break", "continue", "do"])
  , ("csharp", ["else", "catch", "finally", "try", "if", "for", "foreach", "while", "switch", "case:", "default:", "return", "break", "continue", "do"])
  , ("csx", ["else", "catch", "finally", "try", "if", "for", "foreach", "while", "switch", "case:", "default:", "return", "break", "continue", "do"])
  , ("css", [])
  , ("scss", [])
  , ("clojure", ["if", "when", "when-not", "cond", "case", "try", "catch", "finally", "do", "loop", "recur"])
  , ("clojurescript", ["if", "when", "when-not", "cond", "case", "try", "catch", "finally", "do", "loop", "recur"])
  , ("dart", ["else", "catch", "finally", "try", "if", "for", "while", "switch", "case:", "default:", "return", "break", "continue", "do"])
  , ("elm", ["if", "then", "else", "case", "of"])
  , ("erlang", ["if", "case", "of", "try", "catch", "after", "end", "receive"])
  , ("haskell", ["if", "then", "else", "case", "of", "where", "let", "in", "do"])
  , ("go", ["else", "if", "for", "switch", "case:", "default:", "return", "break", "continue", "select", "go", "defer"])
  , ("idl", ["if", "then", "else", "endif", "for", "endfor", "while", "endwhile", "case", "endcase", "switch", "endswitch"])
  , ("java", ["else", "catch", "finally", "try", "if", "for", "while", "switch", "case:", "default:", "return", "break", "continue", "do"])
  , ("javascript", ["else", "catch", "finally", "try", "if", "for", "while", "switch", "case:", "default:", "return", "break", "continue", "do"])
  , ("jsx", ["else", "catch", "finally", "try", "if", "for", "while", "switch", "case:", "default:", "return", "break", "continue", "do"])
  , ("ocaml", ["if", "then", "else", "match", "with", "try", "begin", "end", "for", "while", "do", "done"])
  , ("objc", ["else", "if", "for", "while", "switch", "case:", "default:", "return", "break", "continue", "do"])
  , ("pascal", ["if", "then", "else", "case", "of", "for", "to", "do", "while", "repeat", "until", "try", "except", "finally", "begin", "end"])
  , ("php", ["else", "elseif", "catch", "finally", "try", "if", "for", "foreach", "while", "switch", "case:", "default:", "return", "break", "continue", "do"])
  , ("perl", ["else", "elsif", "if", "unless", "for", "foreach", "while", "until", "return", "last", "next", "do"])
  , ("python", ["pass", "else:", "elif:", "except:", "finally:", "try:", "if:", "for:", "while:", "with:", "def:", "class:", "return", "break", "continue"])
  , ("r", ["if", "else", "for", "in", "while", "repeat", "next", "break", "return"])
  , ("ruby", ["else", "elsif", "rescue", "ensure", "begin", "end", "if", "unless", "for", "while", "until", "case", "when", "return", "break", "next"])
  , ("rust", ["else", "if", "for", "while", "loop", "match", "return", "break", "continue"])
  , ("scala", ["else", "catch", "finally", "try", "if", "for", "while", "match", "case", "return", "do"])
  , ("shell", ["if", "then", "else", "elif", "fi", "for", "do", "done", "while", "until", "case", "esac", "return", "break", "continue"])
  , ("sql", ["if", "else", "end", "case", "when", "then", "begin", "return"])
  , ("swift", ["else", "catch", "try", "if", "for", "while", "switch", "case:", "default:", "return", "break", "continue", "do"])
  , ("typescript", ["else", "catch", "finally", "try", "if", "for", "while", "switch", "case:", "default:", "return", "break", "continue", "do"])
  , ("tsx", ["else", "catch", "finally", "try", "if", "for", "while", "switch", "case:", "default:", "return", "break", "continue", "do"])
  , ("vb", ["If", "Then", "Else", "ElseIf", "End If", "Select", "Case", "End Select", "For", "Next", "Do", "Loop", "While", "Try", "Catch", "Finally", "Return"]) ]

def lcurlyCh : Char := Char.ofNat 123

def rcurlyCh : Char := Char.ofNat 125

def isBracketCh (c : Char) : Bool :=
  c = lcurlyCh || c = rcurlyCh || c = '(' || c = ')' || c = '[' || c = ']'

def skipWs (l : List Char) : List Char := l.dropWhile pyWs

/-- Case-insensitive literal prefix (for `re.IGNORECASE` keyword matching). -/
def stripPrefixCI (kw l : List Char) : Option (List Char) :=
  if (kw.map pyLowerChar).isPrefixOf (l.map pyLowerChar) then some (l.drop kw.length) else none

/-- Matcher for the regex `^\s*[\{\}\(\)\[\]]\s*$` of `brace_only_patterns`. -/
def matchBraceOnly1 (l : List Char) : Bool :=
  match skipWs l with
  | c :: rest => isBracketCh c && (skipWs rest).isEmpty
  | [] => false

/-- Matcher for `^\s*[\{\}\(\)\[\]]\s*[;,]?\s*$`. -/
def matchBraceOnly2 (l : List Char) : Bool :=
  match skipWs l with
  | c :: rest =>
      isBracketCh c &&
        (match skipWs rest with
         | [] => true
         | d :: r2 => (d = ';' || d = ',') && (skipWs r2).isEmpty)
  | [] => false

/-- Matcher for `^\s*\}\s*<kw>\s*\{\s*$` with `re.IGNORECASE`
(`kw` ∈ else/catch/finally). -/
def matchBraceKw (kw : List Char) (l : List Char) : Bool :=
  match skipWs l with
  | c :: rest =>
      c = rcurlyCh &&
        (match stripPrefixCI kw (skipWs rest) with
         | some r2 =>
             match skipWs r2 with
             | d :: r3 => d = lcurlyCh && (skipWs r3).isEmpty
             | [] => false
         | none => false)
  | [] => false

/-- Matcher for `^\s*<\s*/?\s*[a-zA-Z][a-zA-Z0-9]*\s*>\s*$` (simple tags). -/
def matchSimpleTag (l : List Char) : Bool :=
  match skipWs l with
  | c :: rest =>
      c = '<' &&
        (let r1 := skipWs rest
         let r2 := match r1 with
           | d :: t => if d = '/' then skipWs t else r1
           | [] => r1
         match r2 with
         | a :: t =>
             isAsciiAlpha a &&
               (match skipWs (t.dropWhile isAsciiAlnum) with
                | g :: r4 => g = '>' && (skipWs r4).isEmpty
                | [] => false)
         | [] => false)
  | [] => false

/-- Matcher for `^\s*<[^>]*>\s*$` (the `xml` branch). -/
def matchXmlTag (l : List Char) : Bool :=
  match skipWs l with
  | c :: rest =>
      c = '<' &&
        (match rest.dropWhile (fun d => !(d = '>')) with
         | g :: r3 => g = '>' && (skipWs r3).isEmpty
         | [] => false)
  | [] => false

/-- The `auto_generated` counter dict of `MeaningfulCodeMetric`. -/
structure AutoGenerated where
  long_sequences : Nat
  repeated_chars : Nat
  repetitive_patterns : Nat
  total : Nat
deriving DecidableEq, Repr

/-- Maximal runs of equal `isAsciiAlnum`-class characters. -/
def alnumRuns (l : List Char) : List (List Char) :=
  l.splitBy fun a b => isAsciiAlnum a == isAsciiAlnum b

/-- `len(re.findall(r"[a-zA-Z0-9]\x7b20,\x7d", line)) > 0`: some alphanumeric run
has length ≥ 20 (the greedy pattern matches exactly the maximal runs). -/
def hasLongAlnumRun (l : List Char) : Bool :=
  (alnumRuns l).any fun g =>
    (match g with | c :: _ => isAsciiAlnum c | [] => false) && 20 ≤ g.length

/-- `re.sub` of the same pattern with `""`: drop each maximal alphanumeric run
of length ≥ 20. -/
def dropLongAlnumRuns (l : List Char) : List Char :=
  ((alnumRuns l).map fun g =>
    if (match g with | c :: _ => isAsciiAlnum c | [] => false) && 20 ≤ g.length then []
    else g).flatten

/-- `re.search(r"_\x7b5,\x7d|=\x7b5,\x7d|-\x7b5,\x7d", line)`: a run of ≥ 5
consecutive `_`, `=` or `-`. -/
def hasRepeatRun (l : List Char) : Bool :=
  (l.splitBy (· == ·)).any fun g =>
    match g with
    | c :: _ => (c = '_' || c = '=' || c = '-') && 5 ≤ g.length
    | [] => false

/-- `MeaningfulCodeMetric._looks_auto_generated` (argument is the already
stripped line).  Mutates the `auto_generated` counters. -/
def mc_looks_auto_generated (ag : AutoGenerated) (line : List Char) : AutoGenerated × Bool :=
  let step1 :=
    if hasLongAlnumRun line then
      let cleaned := dropLongAlnumRuns line
      if ((pyStripL cleaned).length : ℚ) < ((pyStripL line).length : ℚ) * 3 / 10 then
        ({ ag with long_sequences := ag.long_sequences + 1, total := ag.total + 1 }, true)
      else (ag, false)
    else (ag, false)
  let step2 :=
    if !step1.2 && hasRepeatRun line then
      ({ step1.1 with repeated_chars := step1.1.repeated_chars + 1
                      total := step1.1.total + 1 }, true)
    else step1
  if !step2.2 && 200 < line.length && (line.filter (fun c => !(c = ' '))).dedup.length < 10 then
    ({ step2.1 with repetitive_patterns := step2.1.repetitive_patterns + 1
                    total := step2.1.total + 1 }, true)
  else step2

/-- `MeaningfulCodeMetric._is_only_keywords_or_braces`. -/
def mc_is_only_keywords_or_braces (line : String) (language : String) : Bool :=
  let l := line.data
  if matchBraceOnly1 l || matchBraceOnly2 l || matchBraceKw "else".data l
      || matchBraceKw "catch".data l || matchBraceKw "finally".data l
      || matchSimpleTag l then
    true
  else
    let keywords := lookupD language_keywords language []
    let line_clean := pyStrip (rstripColonSemi line)
    if (keywords.map pyLower).contains (pyLower line_clean) then true
    else if language = "ruby" && pyStrip line = "end" then true
    else if language = "pascal"
        && (pyLower (pyStrip line) = "begin" || pyLower (pyStrip line) = "end") then true
    else if (language = "haskell" || language = "elm")
        && (pyStrip line = "where" || pyStrip line = "let" || pyStrip line = "in") then true
    else if language = "xml" && matchXmlTag l then true
    else if (language = "yaml" || language = "json")
        && (match (pyStrip line).data with
            | [c] => c = lcurlyCh || c = rcurlyCh || c = '[' || c = ']' || c = '-'
            | _ => false) then true
    else false

/-- `MeaningfulCodeMetric._is_meaningful_line`. -/
def mc_is_meaningful_line (ag : AutoGenerated) (line : String) (language : String) :
    AutoGenerated × Bool :=
  let stripped := pyStrip line
  if stripped = "" then (ag, false)
  else
    let r := mc_looks_auto_generated ag stripped.data
    if r.2 then (r.1, false)
    else if mc_is_only_keywords_or_braces stripped language then (r.1, false)
    else (r.1, true)

/-- `MeaningfulCodeMetric._count_meaningful_lines` (threads the mutated
`auto_generated` counters). -/
def mc_count_meaningful_lines (ag : AutoGenerated) (filename source_code : String) :
    AutoGenerated × Nat :=
  if source_code = "" then (ag, 0)
  else
    let language := mc_get_language_from_filename filename
    (splitLines source_code).foldl
      (fun p line =>
        let r := mc_is_meaningful_line p.1 line language
        (r.1, p.2 + if r.2 then 1 else 0))
      (ag, 0)

/-- The `unrealistic_commits` counter dict. -/
structure UnrealisticCommits where
  large_commits : Nat
  rapid_large_commits : Nat
  total : Nat
  skipped_lines : Nat
deriving DecidableEq, Repr

/-- Per-file record in `MeaningfulCodeMetric.file_stats`. -/
structure MCFileStat where
  is_test : Bool
  is_doc : Bool
  language : String
  meaningful_lines : Nat
deriving DecidableEq, Repr

/-- Mutable state of `MeaningfulCodeMetric` (`base` is the wrapped
`QualityCornerstonesMetric`; `commit_times` maps author *name* to the last
realistic commit time). -/
structure MCState where
  base : QCState
  meaningful_total_lines : Nat
  file_stats : List (String × MCFileStat)
  commit_times : List (String × Int)
  unrealistic_commits : UnrealisticCommits
  auto_generated : AutoGenerated
deriving DecidableEq, Repr

def MCState.init : MCState :=
  ⟨QCState.init, 0, [], [], ⟨0, 0, 0, 0⟩, ⟨0, 0, 0, 0⟩⟩

/-- `total_changes` of a commit: `sum((mf.added_lines or 0) +
(mf.deleted_lines or 0) for mf in commit.modified_files)`. -/
def commit_total_changes (c : Commit) : Nat :=
  (c.modified_files.map fun mf => mf.added_lines + mf.deleted_lines).sum

/-- `MeaningfulCodeMetric._is_unrealistic_commit`.  Note the source adds
`total_changes` to `skipped_lines` *before* any classification, so every
processed commit (realistic or not) contributes its lines there.  A commit is
"rapid large" when `total_changes > 1000` and it lands within 10 minutes of
the same author's previous *realistic* commit; `commit_times` is updated only
on the realistic path. -/
def mc_is_unrealistic_commit (s : MCState) (c : Commit) : MCState × Option String :=
  let total_changes := commit_total_changes c
  let s := { s with unrealistic_commits :=
    { s.unrealistic_commits with
      skipped_lines := s.unrealistic_commits.skipped_lines + total_changes } }
  if 5000 < total_changes then
    ({ s with unrealistic_commits :=
        { s.unrealistic_commits with
          large_commits := s.unrealistic_commits.large_commits + 1
          total := s.unrealistic_commits.total + 1 } }, some "large_commit")
  else
    let rapid :=
      match s.commit_times.lookup c.author.name with
      | some last_commit_time =>
          1000 < total_changes && decide (c.committer_date - last_commit_time < 10)
      | none => false
    if rapid then
      ({ s with unrealistic_commits :=
          { s.unrealistic_commits with
            rapid_large_commits := s.unrealistic_commits.rapid_large_commits + 1
            total := s.unrealistic_commits.total + 1 } }, some "rapid_large_commit")
    else
      ({ s with commit_times :=
          (updateEntry s.commit_times c.author.name (fun _ => c.committer_date)
            c.committer_date) }, none)

/-- The meaningful-counting tail of `process_meaningful_metrics` (reached for
non-test/non-doc files). -/
def mc_count_file (s : MCState) (filename : String) (mf : ModifiedFile) : MCState :=
  let source_code := mf.source_code.getD ""
  if source_code ≠ "" then
    let r := mc_count_meaningful_lines s.auto_generated filename source_code
    { s with
      auto_generated := r.1
      meaningful_total_lines := s.meaningful_total_lines + r.2
      file_stats := updateEntry s.file_stats filename
        (fun st => { st with meaningful_lines := r.2 }) ⟨false, false, "", 0⟩ }
  else s

/-- `MeaningfulCodeMetric.process_meaningful_metrics`. -/
def mc_process_meaningful_metrics (env : RegexEnv) (s : MCState) (filename : String)
    (mf : ModifiedFile) : MCState :=
  match s.file_stats.lookup filename with
  | none =>
      let it := env.is_test_file filename
      let idoc := env.is_doc_file filename
      let s := { s with file_stats :=
        s.file_stats ++ [(filename, ⟨it, idoc, mc_get_language_from_filename filename, 0⟩)] }
      if it || idoc then s else mc_count_file s filename mf
  | some st =>
      if st.is_test || st.is_doc then s else mc_count_file s filename mf

/-- `MeaningfulCodeMetric.process_commit`: classify first (returning early on
unrealistic commits), then feed the wrapped quality metric and the
meaningful-line counters. -/
def mc_process_commit (env : RegexEnv) (s : MCState) (c : Commit) : MCState :=
  let r := mc_is_unrealistic_commit s c
  match r.2 with
  | some _ => r.1
  | none =>
      let s := { r.1 with base := qc_process_commit env r.1.base c }
      c.modified_files.foldl (fun s mf => mc_process_meaningful_metrics env s mf.filename mf) s

def mc_process_commits (env : RegexEnv) (s : MCState) (cs : List Commit) : MCState :=
  cs.foldl (mc_process_commit env) s

structure MCTotal where
  files : Nat
  lines : Nat
  meaningful_lines : Nat
  meaningful_percent : ℚ
deriving DecidableEq, Repr

structure AutoGenSnap where
  long_sequences : Nat
  repeated_chars : Nat
  repetitive_patterns : Nat
  total : Nat
  percent : ℚ
deriving DecidableEq, Repr

/-- The snapshot of `MeaningfulCodeMetric.get_metrics`. -/
structure MCSnap where
  total : MCTotal
  quality_score : ℚ
  unrealistic_commits : UnrealisticCommits
  auto_generated : AutoGenSnap
deriving DecidableEq, Repr

/-- `MeaningfulCodeMetric.get_metrics`. -/
def mc_get_metrics (s : MCState) : MCSnap :=
  let base_metrics := qc_get_metrics s.base
  let total_lines := base_metrics.total_lines
  let auto_generated_percent : ℚ :=
    if 0 < total_lines then (s.auto_generated.total : ℚ) / (total_lines : ℚ) * 100 else 0
  { total :=
      { files := base_metrics.total_files
        lines := total_lines
        meaningful_lines := s.meaningful_total_lines
        meaningful_percent :=
          if 0 < total_lines then (s.meaningful_total_lines : ℚ) / (total_lines : ℚ) * 100
          else 0 }
    quality_score := base_metrics.quality_score
    unrealistic_commits := s.unrealistic_commits
    auto_generated :=
      { long_sequences := s.auto_generated.long_sequences
        repeated_chars := s.auto_generated.repeated_chars
        repetitive_patterns := s.auto_generated.repetitive_patterns
        total := s.auto_generated.total
        percent := auto_generated_percent } }

/-- `MeaningfulCodeMetric.merge_metrics`.  All counters are summed and the
percentages recomputed, but `quality_score` is hard-coded to `0`
("No longer averaging test/doc percent"). -/
def mc_merge_metrics (l : List MCSnap) : MCSnap :=
  if l = [] then
    { total := ⟨0, 0, 0, 0⟩
      quality_score := 0
      unrealistic_commits := ⟨0, 0, 0, 0⟩
      auto_generated := ⟨0, 0, 0, 0, 0⟩ }
  else
    let total_files : Nat := (l.map (·.total.files)).sum
    let total_lines : Nat := (l.map (·.total.lines)).sum
    let total_meaningful_lines : Nat := (l.map (·.total.meaningful_lines)).sum
    let total_large_commits := (l.map (·.unrealistic_commits.large_commits)).sum
    let total_rapid_large_commits := (l.map (·.unrealistic_commits.rapid_large_commits)).sum
    let total_unrealistic := (l.map (·.unrealistic_commits.total)).sum
    let total_skipped_lines := (l.map (·.unrealistic_commits.skipped_lines)).sum
    let total_long_sequences := (l.map (·.auto_generated.long_sequences)).sum
    let total_repeated_chars := (l.map (·.auto_generated.repeated_chars)).sum
    let total_repetitive_patterns := (l.map (·.auto_generated.repetitive_patterns)).sum
    let total_auto_generated : Nat := (l.map (·.auto_generated.total)).sum
    let auto_generated_percent : ℚ :=
      if 0 < total_lines then (total_auto_generated : ℚ) / (total_lines : ℚ) * 100 else 0
    { total :=
        { files := total_files
          lines := total_lines
          meaningful_lines := total_meaningful_lines
          meaningful_percent :=
            if 0 < total_lines then (total_meaningful_lines : ℚ) / (total_lines : ℚ) * 100
            else 0 }
      quality_score := 0
      unrealistic_commits :=
        { large_commits := total_large_commits
          rapid_large_commits := total_rapid_large_commits
          total := total_unrealistic
          skipped_lines := total_skipped_lines }
      auto_generated :=
        { long_sequences := total_long_sequences
          repeated_chars := total_repeated_chars
          repetitive_patterns := total_repetitive_patterns
          total := total_auto_generated
          percent := auto_generated_percent } }

/-- A commit with `n` one-line modified files (`ChangeSetMetric` reads only
`len(commit.modified_files)` and the filenames). -/
def csDemoCommit (hsh : String) (n : Nat) : Commit :=
  { hash := hsh, msg := "m", author := ⟨"a", "a@x"⟩, author_date := 0, committer_date := 0
    insertions := 0, deletions := 0
    modified_files := (List.range n).map fun i =>
      { old_path := none, new_path := some (toString i), filename := toString i
        change_type := ChangeType.ADD, added_lines := 1, deleted_lines := 0
        source_code := none } }

/-- First chunk: two commits touching 1 and 3 files (snapshot avg 2). -/
def cs_chunk1 : List Commit := [csDemoCommit "c1" 1, csDemoCommit "c2" 3]

/-- Second chunk: one commit touching 6 files (snapshot avg 6). -/
def cs_chunk2 : List Commit := [csDemoCommit "c3" 6]

/-- The regex-oracle results on the one filename used below:
`_is_test_file("tests/README.md")` is true (the `re` pattern `tests?/.*`
matches) and `_is_doc_file("tests/README.md")` is true (`.*\.md$` matches). -/
def envTD : RegexEnv :=
  { is_test_file := fun f => f = "tests/README.md"
    is_doc_file := fun f => f = "tests/README.md" }

/-- A one-line change to a file that is both a test and a doc file. -/
def mfTD : ModifiedFile :=
  { old_path := some "tests/README.md", new_path := some "tests/README.md"
    filename := "tests/README.md", change_type := ChangeType.MODIFY
    added_lines := 10, deleted_lines := 0, source_code := some "hello" }

/-- A realistic commit (10 changed lines, far below every unrealistic
threshold) touching `tests/README.md`. -/
def cTD : Commit :=
  { hash := "h1", msg := "update docs", author := ⟨"alice", "alice@x"⟩
    author_date := 1000, committer_date := 1000
    insertions := 10, deletions := 0, modified_files := [mfTD] }

/-- Two adjacent weekly ranges (the shape `generate_weekly_ranges` emits). -/
def wk_ranges_demo : List (Int × Int × String) := [(0, 6, "w1"), (7, 13, "w2")]

/-- A commit authored on day 3 (inside `w1`) but committed on day 10
(inside `w2`). -/
def cWeekSplit : Commit :=
  { hash := "h", msg := "m", author := ⟨"a", "a@x"⟩, author_date := 3, committer_date := 10
    insertions := 0, deletions := 0, modified_files := [] }

/-- Records `datetime.date(2023, 8, 24).isocalendar()[:2] == (2023, 34)`
(day 19593 is 2023-08-24, a Thursday of ISO week 34). -/
def iso_2023_08_24 : Int → Int × Nat := fun _ => (2023, 34)

/-- A modified file on path `f` with `n` added lines. -/
def contrib_file_change (n : Nat) : ModifiedFile :=
  { old_path := none, new_path := some "f", filename := "f"
    change_type := ChangeType.MODIFY, added_lines := n, deleted_lines := 0
    source_code := none }

def contrib_commit (email : String) (n : Nat) : Commit :=
  { hash := email, msg := "m", author := ⟨email, email⟩, author_date := 0, committer_date := 0
    insertions := n, deletions := 0, modified_files := [contrib_file_change n] }

/-- One chunk: a main author with 100 changed lines on `f` and a second
author with 1 line (share 1/101 < 5%, hence one minor contributor). -/
def contrib_chunk (e1 e2 : String) : List Commit :=
  [contrib_commit e1 100, contrib_commit e2 1]

/-- A commit whose message `"refactor parser"` matches none of the bug
patterns (no fix/bug/issue/problem/patch/defect/debug wording and no issue
number); the all-false `re_search` oracle records exactly that. -/
def bugs_demo_commit : Commit :=
  { hash := "b1", msg := "refactor parser", author := ⟨"a", "a@x"⟩
    author_date := 0, committer_date := 0, insertions := 5, deletions := 0
    modified_files :=
      [{ old_path := some "p.py", new_path := some "p.py", filename := "p.py"
         change_type := ChangeType.MODIFY, added_lines := 5, deleted_lines := 0
         source_code := none }] }

/-- Total commit count across a session list. -/
def sumSessionCommits (l : List Session) : Nat := (l.map (·.commits.length)).sum

/-! ## Lemmas and claim theorems -/

theorem valuesSum_updateEntry_add {α : Type} [DecidableEq α]
    (l : List (α × Nat)) (k : α) (n : Nat) :
    valuesSum (updateEntry l k (· + n) 0) = valuesSum l + n := by
  induction l with
  | nil => simp [updateEntry, valuesSum]
  | cons hd tl ih =>
      obtain ⟨k0, v0⟩ := hd
      by_cases h : k0 = k <;> simp [updateEntry, h, valuesSum] at ih ⊢ <;> omega

theorem estimate_count_loop_le (sample_size n acc : Nat) (h : acc < sample_size) :
    estimate_count_loop sample_size n acc ≤ sample_size := by
  induction n generalizing acc with
  | zero => simpa [estimate_count_loop] using Nat.le_of_lt h
  | succ n ih =>
      simp only [estimate_count_loop]
      by_cases hb : sample_size ≤ acc + 1
      · simpa [hb] using Nat.le_antisymm (by omega) hb |>.le
      · simpa [hb] using ih (acc + 1) (by omega)

theorem pyLt_ok_of_distinct {S : List HeapEntry} (hS : distinctPriorities S)
    {a b : HeapEntry} (ha : a ∈ S) (hb : b ∈ S) : pyLt a b ≠ Except.error () := by
  unfold pyLt
  by_cases hab : a = b
  · subst hab; simp
  · have := hS a ha b hb hab
    simp [this]

/-- Every element of the working heap stays inside the pool `S` of entries
present when the operation started, so every comparison `pyLt` performs is
between members of `S`; with pairwise-distinct priorities it never raises. -/
theorem siftdown_go_ok {S : List HeapEntry} (hS : distinctPriorities S)
    (startpos : Nat) (newitem : HeapEntry) (hnew : newitem ∈ S) :
    ∀ (fuel : Nat) (heap : List HeapEntry) (pos : Nat), pos < heap.length →
      (∀ x ∈ heap, x ∈ S) →
      ∃ h2, siftdown_go startpos newitem fuel heap pos = Except.ok h2 ∧
        h2.length = heap.length ∧ (∀ x ∈ h2, x ∈ S) := by
  intro fuel
  induction fuel with
  | zero =>
      intro heap pos hpos hmem
      refine ⟨heap.set pos newitem, rfl, List.length_set .., fun x hx => ?_⟩
      rcases List.mem_or_eq_of_mem_set hx with h | h
      · exact hmem x h
      · exact h ▸ hnew
  | succ fuel ih =>
      intro heap pos hpos hmem
      simp only [siftdown_go]
      by_cases hsp : startpos < pos
      · simp only [if_pos hsp]
        have hpp : (pos - 1) / 2 < heap.length := by omega
        have hparent : heap.getD ((pos - 1) / 2) default ∈ S := by
          rw [List.getD_eq_getElem heap default hpp]
          exact hmem _ (List.getElem_mem hpp)
        cases hlt : pyLt newitem (heap.getD ((pos - 1) / 2) default) with
        | error e =>
            cases e
            exact absurd hlt (pyLt_ok_of_distinct hS hnew hparent)
        | ok b =>
            cases b with
            | false =>
                refine ⟨heap.set pos newitem, rfl, List.length_set .., fun x hx => ?_⟩
                rcases List.mem_or_eq_of_mem_set hx with h | h
                · exact hmem x h
                · exact h ▸ hnew
            | true =>
                have hlen : ((pos - 1) / 2) < (heap.set pos (heap.getD ((pos - 1) / 2) default)).length := by
                  rw [List.length_set]; omega
                have hmem2 : ∀ x ∈ heap.set pos (heap.getD ((pos - 1) / 2) default), x ∈ S := by
                  intro x hx
                  rcases List.mem_or_eq_of_mem_set hx with h | h
                  · exact hmem x h
                  · exact h ▸ hparent
                obtain ⟨h2, heq, hlen2, hmem3⟩ := ih _ _ hlen hmem2
                refine ⟨h2, heq, ?_, hmem3⟩
                rw [hlen2, List.length_set]
      · simp only [if_neg hsp]
        refine ⟨heap.set pos newitem, rfl, List.length_set .., fun x hx => ?_⟩
        rcases List.mem_or_eq_of_mem_set hx with h | h
        · exact hmem x h
        · exact h ▸ hnew

theorem siftup_go_ok {S : List HeapEntry} (hS : distinctPriorities S)
    (endpos startpos : Nat) (newitem : HeapEntry) (hnew : newitem ∈ S) :
    ∀ (fuel : Nat) (heap : List HeapEntry) (pos : Nat), pos < heap.length →
      heap.length = endpos → (∀ x ∈ heap, x ∈ S) →
      ∃ h2, siftup_go endpos startpos newitem fuel heap pos = Except.ok h2 := by
  intro fuel
  induction fuel with
  | zero =>
      intro heap pos hpos hlen hmem
      simp only [siftup_go]
      have hpos2 : pos < (heap.set pos newitem).length := by rw [List.length_set]; omega
      have hmem2 : ∀ x ∈ heap.set pos newitem, x ∈ S := by
        intro x hx
        rcases List.mem_or_eq_of_mem_set hx with h | h
        · exact hmem x h
        · exact h ▸ hnew
      obtain ⟨h2, heq, -, -⟩ := siftdown_go_ok hS startpos newitem hnew (pos + 1) _ pos hpos2 hmem2
      rw [heq]
      exact ⟨h2, rfl⟩
  | succ fuel ih =>
      intro heap pos hpos hlen hmem
      simp only [siftup_go]
      by_cases hc : 2 * pos + 1 < endpos
      · simp only [if_pos hc]
        have hcl : 2 * pos + 1 < heap.length := by omega
        have hchild : heap.getD (2 * pos + 1) default ∈ S := by
          rw [List.getD_eq_getElem heap default hcl]
          exact hmem _ (List.getElem_mem hcl)
        by_cases hr : 2 * pos + 1 + 1 < endpos
        · simp only [if_pos hr]
          have hrl : 2 * pos + 1 + 1 < heap.length := by omega
          have hright : heap.getD (2 * pos + 1 + 1) default ∈ S := by
            rw [List.getD_eq_getElem heap default hrl]
            exact hmem _ (List.getElem_mem hrl)
          cases hlt : pyLt (heap.getD (2 * pos + 1) default) (heap.getD (2 * pos + 1 + 1) default) with
          | error e =>
              cases e
              exact absurd hlt (pyLt_ok_of_distinct hS hchild hright)
          | ok b =>
              set cp := if b then 2 * pos + 1 else 2 * pos + 1 + 1 with hcp
              have hcpl : cp < heap.length := by
                rw [hcp]; split <;> omega
              have hcpS : heap.getD cp default ∈ S := by
                rw [List.getD_eq_getElem heap default hcpl]
                exact hmem _ (List.getElem_mem hcpl)
              have hpos2 : cp < (heap.set pos (heap.getD cp default)).length := by
                rw [List.length_set]; omega
              have hlen2 : (heap.set pos (heap.getD cp default)).length = endpos := by
                rw [List.length_set]; omega
              have hmem2 : ∀ x ∈ heap.set pos (heap.getD cp default), x ∈ S := by
                intro x hx
                rcases List.mem_or_eq_of_mem_set hx with h | h
                · exact hmem x h
                · exact h ▸ hcpS
              exact ih _ _ hpos2 hlen2 hmem2
        · simp only [if_neg hr]
          have hpos2 : 2 * pos + 1 < (heap.set pos (heap.getD (2 * pos + 1) default)).length := by
            rw [List.length_set]; omega
          have hlen2 : (heap.set pos (heap.getD (2 * pos + 1) default)).length = endpos := by
            rw [List.length_set]; omega
          have hmem2 : ∀ x ∈ heap.set pos (heap.getD (2 * pos + 1) default), x ∈ S := by
            intro x hx
            rcases List.mem_or_eq_of_mem_set hx with h | h
            · exact hmem x h
            · exact h ▸ hchild
          exact ih _ _ hpos2 hlen2 hmem2
      · simp only [if_neg hc]
        have hpos2 : pos < (heap.set pos newitem).length := by rw [List.length_set]; omega
        have hmem2 : ∀ x ∈ heap.set pos newitem, x ∈ S := by
          intro x hx
          rcases List.mem_or_eq_of_mem_set hx with h | h
          · exact hmem x h
          · exact h ▸ hnew
        obtain ⟨h2, heq, -, -⟩ := siftdown_go_ok hS startpos newitem hnew (pos + 1) _ pos hpos2 hmem2
        rw [heq]
        exact ⟨h2, rfl⟩

/-- `heappush` never raises when all entries present (the queue's plus the
submitted one) have pairwise distinct priorities. -/
theorem heappush_ok (heap : List HeapEntry) (item : HeapEntry)
    (h : distinctPriorities (item :: heap)) :
    ∃ h2, heappush heap item = Except.ok h2 := by
  unfold heappush
  have hmem : ∀ x ∈ heap ++ [item], x ∈ item :: heap := by
    intro x hx
    rcases List.mem_append.mp hx with h1 | h1
    · exact List.mem_cons_of_mem _ h1
    · simp only [List.mem_singleton] at h1
      exact h1 ▸ List.mem_cons_self _ _
  have hpos : heap.length < (heap ++ [item]).length := by
    simp
  obtain ⟨h2, heq, -, -⟩ :=
    siftdown_go_ok h 0 item (List.mem_cons_self _ _) (heap.length + 1) _ heap.length hpos hmem
  exact ⟨h2, heq⟩

/-- `heappop` never raises when all entries in the queue have pairwise
distinct priorities. -/
theorem heappop_ok (heap : List HeapEntry) (h : distinctPriorities heap) :
    heappop heap ≠ Except.error () := by
  unfold heappop
  cases hl : heap.getLast? with
  | none => simp
  | some lastelt =>
      have hlast : lastelt ∈ heap := List.mem_of_mem_getLast? hl
      cases hr : heap.dropLast with
      | nil => simp
      | cons returnitem rest0 =>
          have hsub : ∀ x ∈ (returnitem :: rest0), x ∈ heap := by
            rw [← hr]
            exact fun x hx => (List.dropLast_sublist heap).mem hx
          have hpos : 0 < ((returnitem :: rest0).set 0 lastelt).length := by
            rw [List.length_set]; simp
          have hlen : ((returnitem :: rest0).set 0 lastelt).length = (returnitem :: rest0).length :=
            List.length_set ..
          have hmem : ∀ x ∈ (returnitem :: rest0).set 0 lastelt, x ∈ heap := by
            intro x hx
            rcases List.mem_or_eq_of_mem_set hx with h1 | h1
            · exact hsub x h1
            · exact h1 ▸ hlast
          obtain ⟨h2, heq⟩ := siftup_go_ok h (returnitem :: rest0).length 0 lastelt hlast
            (returnitem :: rest0).length ((returnitem :: rest0).set 0 lastelt) 0 hpos hlen hmem
          dsimp only
          rw [heq]
          simp

/-- C2: `process_repo_directly` never takes the chunked path.  The counting
loop of `estimate_repo_size` breaks at `sample_size` commits, and the call
site uses the default `sample_size = 100`, so `commit_count ≤ 100 < 500` and
`should_split`/`estimated_commits > 500` can never hold — *no* repository,
however large, is split; every one is processed as a single unit. -/
theorem chunked_path_never_taken (total_commits : Nat) :
    takes_chunked_path total_commits 100 = false := by
  have h := estimate_count_loop_le 100 total_commits 0 (by omega)
  have h5 : ¬ (500 ≤ estimate_count_loop 100 total_commits 0) := by omega
  simp [takes_chunked_path, estimate_repo_size, h5]

/-- C3: the `ChangeSet` snapshot carries no commit count (its type has exactly
`max` and `avg`), so `merge_metrics` weights every chunk by the default `1`:
merging the two chunk snapshots yields avg `(2+6)/2 = 4`, while processing
the same three commits at once yields avg `(1+3+6)/3 = 10/3`. -/
theorem cs_merge_chunks_ne_whole :
    (cs_merge_metrics [cs_get_metrics (cs_process_commits ChangeSetState.init cs_chunk1),
        cs_get_metrics (cs_process_commits ChangeSetState.init cs_chunk2)]).avg = 4 ∧
    (cs_get_metrics (cs_process_commits ChangeSetState.init (cs_chunk1 ++ cs_chunk2))).avg
      = 10 / 3 ∧
    cs_merge_metrics [cs_get_metrics (cs_process_commits ChangeSetState.init cs_chunk1),
        cs_get_metrics (cs_process_commits ChangeSetState.init cs_chunk2)]
      ≠ cs_get_metrics (cs_process_commits ChangeSetState.init (cs_chunk1 ++ cs_chunk2)) := by
  have h1 : (cs_process_commits ChangeSetState.init cs_chunk1).commits_file_count = [1, 3] := by
    decide
  have h2 : (cs_process_commits ChangeSetState.init cs_chunk2).commits_file_count = [6] := by
    decide
  have h3 : (cs_process_commits ChangeSetState.init
      (cs_chunk1 ++ cs_chunk2)).commits_file_count = [1, 3, 6] := by decide
  have hx1 : cs_get_metrics (cs_process_commits ChangeSetState.init cs_chunk1) = ⟨3, 2⟩ := by
    simp [cs_get_metrics, h1]
    norm_num
  have hx2 : cs_get_metrics (cs_process_commits ChangeSetState.init cs_chunk2) = ⟨6, 6⟩ := by
    simp [cs_get_metrics, h2]
  have hw : cs_get_metrics (cs_process_commits ChangeSetState.init (cs_chunk1 ++ cs_chunk2))
      = ⟨6, 10 / 3⟩ := by
    simp [cs_get_metrics, h3]
  have hm : cs_merge_metrics [(⟨3, 2⟩ : ChangeSetSnap), ⟨6, 6⟩] = ⟨6, 4⟩ := by
    simp [cs_merge_metrics]
    norm_num
  rw [hx1, hx2, hw, hm]
  refine ⟨rfl, rfl, ?_⟩
  intro h
  have := congrArg ChangeSetSnap.avg h
  norm_num at this

theorem cs_merge_singleton (x : ChangeSetSnap) : cs_merge_metrics [x] = x := by
  simp [cs_merge_metrics]

theorem mc_merge_singleton (s : MCState) :
    mc_merge_metrics [mc_get_metrics s] = { mc_get_metrics s with quality_score := 0 } := by
  simp [mc_merge_metrics, mc_get_metrics, qc_get_metrics]

/-- C1 (amended): merging a one-element snapshot list reproduces the snapshot
for `ChangeSetMetric`, and for `MeaningfulCodeMetric` it reproduces every
field except `quality_score`, which `merge_metrics` hard-codes to `0` — so
`m.merge_metrics([m.get_metrics()]) == m.get_metrics()` holds there exactly
when the snapshot's `quality_score` is `0`. -/
theorem merge_singleton_snapshot :
    (∀ s : ChangeSetState, cs_merge_metrics [cs_get_metrics s] = cs_get_metrics s) ∧
    (∀ s : MCState,
      mc_merge_metrics [mc_get_metrics s] = { mc_get_metrics s with quality_score := 0 }) :=
  ⟨fun s => cs_merge_singleton (cs_get_metrics s), mc_merge_singleton⟩

/-- C1 (counterexample): after processing `cTD` the `MeaningfulCode` snapshot
has `quality_score = 100` (the file is all test and doc lines), but
`merge_metrics` over the one-element snapshot list returns `quality_score =
0`, so `m.merge_metrics([m.get_metrics()]) ≠ m.get_metrics()` on this
reachable state. -/
theorem mc_merge_singleton_ne_snapshot :
    mc_merge_metrics [mc_get_metrics (mc_process_commit envTD MCState.init cTD)]
      ≠ mc_get_metrics (mc_process_commit envTD MCState.init cTD) := by
  have hbase : (mc_process_commit envTD MCState.init cTD).base
      = ⟨1, 1, 1, 1, 1, 1, [("tests/README.md", ⟨true, true, 1, 1, 1⟩)]⟩ := by decide
  have hq : (mc_get_metrics (mc_process_commit envTD MCState.init cTD)).quality_score
      = 100 := by
    simp [mc_get_metrics, qc_get_metrics, hbase]
  have hm : ∀ x : MCSnap, (mc_merge_metrics [x]).quality_score = 0 := by
    intro x
    simp [mc_merge_metrics]
  intro h
  have h2 := congrArg MCSnap.quality_score h
  rw [hm, hq] at h2
  norm_num at h2

theorem mc_count_file_unreal (s : MCState) (filename : String) (mf : ModifiedFile) :
    (mc_count_file s filename mf).unrealistic_commits = s.unrealistic_commits := by
  unfold mc_count_file
  dsimp only
  split <;> rfl

theorem mc_pmm_unreal (env : RegexEnv) (s : MCState) (filename : String) (mf : ModifiedFile) :
    (mc_process_meaningful_metrics env s filename mf).unrealistic_commits
      = s.unrealistic_commits := by
  unfold mc_process_meaningful_metrics
  cases s.file_stats.lookup filename with
  | none =>
      by_cases hb : (env.is_test_file filename || env.is_doc_file filename) = true <;>
        simp [hb, mc_count_file_unreal]
  | some st =>
      by_cases hb : (st.is_test || st.is_doc) = true <;> simp [hb, mc_count_file_unreal]

theorem mc_pmm_fold_unreal (env : RegexEnv) (mfs : List ModifiedFile) :
    ∀ s : MCState,
      (mfs.foldl (fun s mf => mc_process_meaningful_metrics env s mf.filename mf)
        s).unrealistic_commits = s.unrealistic_commits := by
  induction mfs with
  | nil => intro s; rfl
  | cons mf rest ih =>
      intro s
      rw [List.foldl_cons, ih, mc_pmm_unreal]

theorem mc_unrealistic_skipped (s : MCState) (c : Commit) :
    (mc_is_unrealistic_commit s c).1.unrealistic_commits.skipped_lines
      = s.unrealistic_commits.skipped_lines + commit_total_changes c := by
  unfold mc_is_unrealistic_commit
  dsimp only
  split
  · rfl
  · split <;> rfl

/-- C6: `unrealistic_commits["skipped_lines"]` is incremented by
`_is_unrealistic_commit` *before* any classification, so after any commit it
has grown by that commit's full `added + deleted` total whether or not the
commit is unrealistic.  In particular the realistic commit `cTD` (10 changed
lines, `total = 0` unrealistic commits) contributes 10 to `skipped_lines`,
where the claim requires 0. -/
theorem mc_skipped_lines_counts_all_commits :
    (∀ (env : RegexEnv) (s : MCState) (c : Commit),
      (mc_process_commit env s c).unrealistic_commits.skipped_lines
        = s.unrealistic_commits.skipped_lines + commit_total_changes c) ∧
    (mc_process_commit envTD MCState.init cTD).unrealistic_commits
      = ⟨0, 0, 0, 10⟩ := by
  constructor
  · intro env s c
    unfold mc_process_commit
    cases hr : (mc_is_unrealistic_commit s c).2 with
    | some ty => simp [hr, mc_unrealistic_skipped]
    | none =>
        simp only [hr, mc_pmm_fold_unreal]
        exact mc_unrealistic_skipped s c
  · decide

/-- C4 (counterexample): the aggregator buckets by `commit.author_date`.  A
commit authored in week `w1` but committed in week `w2` lands in bucket `w1`,
not in the committer-date week `w2` the claim names. -/
theorem week_dispatch_uses_author_date_cex :
    weekly_dispatch wk_ranges_demo [] cWeekSplit = [("w1", 1)] ∧
    find_week_label wk_ranges_demo cWeekSplit.committer_date = some "w2" ∧
    ("w1" : String) ≠ "w2" := by decide

/-- C4 (amended): every commit is dispatched to at most one weekly bucket —
the first range of `weekly_ranges` containing its naive *author* date (the
loop breaks at the first hit); a commit matching no range feeds no bucket. -/
theorem week_dispatch_author_date_unique
    (ranges : List (Int × Int × String)) (buckets : List (String × Nat)) (c : Commit) :
    (∀ label, find_week_label ranges c.author_date = some label →
      ∃ r ∈ ranges, r.2.2 = label ∧ r.1 ≤ c.author_date ∧ c.author_date ≤ r.2.1) ∧
    valuesSum (weekly_dispatch ranges buckets c)
      = valuesSum buckets
        + (if (find_week_label ranges c.author_date).isSome then 1 else 0) := by
  constructor
  · intro label hl
    unfold find_week_label at hl
    rcases hf : ranges.find? (fun r =>
        decide (r.1 ≤ c.author_date) && decide (c.author_date ≤ r.2.1)) with _ | r
    · rw [hf] at hl
      simp at hl
    · rw [hf] at hl
      have hmem := List.mem_of_find?_eq_some hf
      have hp := List.find?_some hf
      simp only [Bool.and_eq_true, decide_eq_true_eq] at hp
      exact ⟨r, hmem, by simpa using hl, hp.1, hp.2⟩
  · unfold weekly_dispatch
    cases h : find_week_label ranges c.author_date with
    | none => simp
    | some label =>
        simp only [Option.isSome_some, if_pos]
        have := valuesSum_updateEntry_add buckets label 1
        simpa using this

theorem generate_weekly_ranges_go_nil (e : Int) (fuel : Nat) (cur : Int) (wn : Nat)
    (h : ¬ cur < e) : generate_weekly_ranges_go e fuel cur wn = [] := by
  cases fuel <;> simp [generate_weekly_ranges_go, h]

theorem weekly_ranges_go_label_form (e : Int) :
    ∀ (fuel : Nat) (cur : Int) (wn : Nat) (r : Int × Int × String),
      r ∈ generate_weekly_ranges_go e fuel cur wn →
      ∃ k : Nat, r.1 = cur + 7 * k
        ∧ r.2.2 = "Week_" ++ toString (wn + k) ++ "_" ++ fmtDay r.1 := by
  intro fuel
  induction fuel with
  | zero =>
      intro cur wn r hr
      simp [generate_weekly_ranges_go] at hr
  | succ fuel ih =>
      intro cur wn r hr
      by_cases hc : cur < e
      · simp only [generate_weekly_ranges_go, if_pos hc, List.mem_cons] at hr
        rcases hr with rfl | hr'
        · exact ⟨0, by simp, by simp⟩
        · by_cases hw : e < cur + 6
          · rw [if_pos hw] at hr'
            rw [generate_weekly_ranges_go_nil e fuel (e + 1) (wn + 1) (by omega)] at hr'
            simp at hr'
          · rw [if_neg hw] at hr'
            obtain ⟨k, h1, h2⟩ := ih (cur + 6 + 1) (wn + 1) r hr'
            refine ⟨k + 1, by omega, ?_⟩
            rw [h2, show wn + 1 + k = wn + (k + 1) by omega]
      · rw [generate_weekly_ranges_go_nil e (fuel + 1) cur wn hc] at hr
        simp at hr

/-- C5 (amended): the keys of the engine's weekly metrics map are the
`generate_weekly_ranges` labels `Week_<n>_<YYYY-MM-DD>`, where the date is
`since + 7·(n−1)` days — an arbitrary weekday, not a Monday in general — and
the per-developer weekly keys of `developer_hours` have the ISO form
`<year>-W<week:02d>`.  Neither is the bare `YYYY-MM-DD` Monday string the
claim describes. -/
theorem weekly_keys_form :
    (∀ (s e : Int) (r : Int × Int × String), r ∈ generate_weekly_ranges s e →
      ∃ k : Nat, r.1 = s + 7 * k
        ∧ r.2.2 = "Week_" ++ toString (1 + k) ++ "_" ++ fmtDay r.1) ∧
    (∀ (iso : Int → Int × Nat) (d : Int),
      dh_get_week_key iso d = toString (iso d).1 ++ "-W" ++ pad2 (iso d).2) := by
  constructor
  · intro s e r hr
    exact weekly_ranges_go_label_form e _ s 1 r hr
  · intro iso d
    rfl

theorem weekly_keys_form_witness :
    ∃ k : Nat, ((19361 : Int), (19367 : Int), "Week_1_2023-01-04").1 = 19361 + 7 * k
      ∧ ((19361 : Int), (19367 : Int), "Week_1_2023-01-04").2.2
          = "Week_" ++ toString (1 + k) ++ "_"
              ++ fmtDay ((19361 : Int), (19367 : Int), "Week_1_2023-01-04").1 :=
  weekly_keys_form.1 19361 19374 (19361, 19367, "Week_1_2023-01-04") (by decide)

/-- C5 (counterexample): for `since = 2023-01-04` (a Wednesday) the first
weekly key is `Week_1_2023-01-04`, not the Monday string `2023-01-02` the
claim requires; and the `developer_hours` weekly key for 2023-08-24 is
`2023-W34`, not the Monday string `2023-08-21`. -/
theorem weekly_keys_not_monday_cex :
    (generate_weekly_ranges 19361 19374).map (fun r => r.2.2)
        = ["Week_1_2023-01-04", "Week_2_2023-01-11"] ∧
    spec_week_key 19361 = "2023-01-02" ∧
    ("Week_1_2023-01-04" : String) ≠ "2023-01-02" ∧
    dh_get_week_key iso_2023_08_24 19593 = "2023-W34" ∧
    spec_week_key 19593 = "2023-08-21" ∧
    ("2023-W34" : String) ≠ "2023-08-21" := by decide

theorem contrib_minor_le_total_aux (L : List (Option String × List (String × Nat))) :
    ∀ (fp : Option String) (t m : Nat),
      ((L.filterMap fun e =>
          if valuesSum e.2 = 0 then none else some (e.1, e.2.length)).lookup fp = some t) →
      ((L.filterMap fun e =>
          if valuesSum e.2 = 0 then none
          else some (e.1, (e.2.filter fun av =>
            decide ((av.2 : ℚ) / (valuesSum e.2 : ℚ) < 5 / 100)).length)).lookup fp
        = some m) →
      m ≤ t := by
  induction L with
  | nil => intro fp t m ht; simp at ht
  | cons e rest ih =>
      intro fp t m ht hm
      by_cases hz : valuesSum e.2 = 0
      · simp only [List.filterMap_cons, if_pos hz] at ht hm
        exact ih fp t m ht hm
      · simp only [List.filterMap_cons, if_neg hz] at ht hm
        by_cases hfp : fp = e.1
        · have hbeq : (fp == e.1) = true := by simp [hfp]
          simp only [List.lookup, hbeq, cond_true, Option.some_inj] at ht hm
          rw [← ht, ← hm]
          exact List.length_filter_le _ _
        · have hbeq : (fp == e.1) = false := by simp [hfp]
          simp only [List.lookup, hbeq, cond_false] at ht hm
          exact ih fp t m ht hm

/-- C7 (amended): in a snapshot produced directly by
`ContributorsMetric.get_metrics`, `total[f] ≥ minor[f] ≥ 0` holds for every
file — `total[f]` counts a file's authors and `minor[f]` counts the subset
whose line share is below 5%.  (Merged snapshots do not preserve the
inequality: `merge_metrics` takes the per-file max of `total` but the
per-file *sum* of `minor`, see the counterexample.) -/
theorem contrib_direct_snapshot_minor_le_total (s : ContributorsState)
    (fp : Option String) (t m : Nat)
    (ht : (contrib_get_metrics s).total.lookup fp = some t)
    (hm : (contrib_get_metrics s).minor.lookup fp = some m) :
    0 ≤ m ∧ m ≤ t :=
  ⟨Nat.zero_le m, contrib_minor_le_total_aux s.lines_by_author fp t m ht hm⟩

theorem contrib_chunk_snap (e1 e2 : String) (h : e1 ≠ e2) :
    contrib_get_metrics (contrib_process_commits ContributorsState.init (contrib_chunk e1 e2))
      = ⟨[(some "f", 2)], [(some "f", 1)]⟩ := by
  have hstate : contrib_process_commits ContributorsState.init (contrib_chunk e1 e2)
      = ⟨[(some "f", [e1, e2])], [(some "f", [(e1, 100), (e2, 1)])], []⟩ := by
    simp [contrib_process_commits, contrib_process_commit, contrib_process_modified_file,
      contrib_chunk, contrib_commit, contrib_file_change, lookupD, updateEntry, setAdd,
      List.lookup, ContributorsState.init, h, Ne.symm h]
  rw [hstate]
  simp only [contrib_get_metrics, valuesSum, List.filterMap_cons, List.filterMap_nil,
    List.map_cons, List.map_nil, List.sum_cons, List.sum_nil]
  norm_num [List.filter_cons]

theorem contrib_direct_snapshot_minor_le_total_witness : (0 : Nat) ≤ 1 ∧ (1 : Nat) ≤ 2 :=
  contrib_direct_snapshot_minor_le_total
    (contrib_process_commits ContributorsState.init (contrib_chunk "a1@x" "b1@x"))
    (some "f") 2 1
    (by rw [contrib_chunk_snap "a1@x" "b1@x" (by decide)]; rfl)
    (by rw [contrib_chunk_snap "a1@x" "b1@x" (by decide)]; rfl)

/-- C7 (counterexample): three disjoint chunks each contribute a snapshot
with `total[f] = 2, minor[f] = 1`; `merge_metrics` maxes `total` (2) but sums
`minor` (3), so the merged snapshot violates `total[f] ≥ minor[f]`. -/
theorem contrib_merge_minor_exceeds_total_cex :
    ∃ t m : Nat,
      (contrib_merge_metrics
        [contrib_get_metrics
            (contrib_process_commits ContributorsState.init (contrib_chunk "a1@x" "b1@x")),
         contrib_get_metrics
            (contrib_process_commits ContributorsState.init (contrib_chunk "a2@x" "b2@x")),
         contrib_get_metrics
            (contrib_process_commits ContributorsState.init
              (contrib_chunk "a3@x" "b3@x"))]).total.lookup (some "f") = some t ∧
      (contrib_merge_metrics
        [contrib_get_metrics
            (contrib_process_commits ContributorsState.init (contrib_chunk "a1@x" "b1@x")),
         contrib_get_metrics
            (contrib_process_commits ContributorsState.init (contrib_chunk "a2@x" "b2@x")),
         contrib_get_metrics
            (contrib_process_commits ContributorsState.init
              (contrib_chunk "a3@x" "b3@x"))]).minor.lookup (some "f") = some m ∧
      t < m := by
  rw [contrib_chunk_snap "a1@x" "b1@x" (by decide), contrib_chunk_snap "a2@x" "b2@x" (by decide),
    contrib_chunk_snap "a3@x" "b3@x" (by decide)]
  exact ⟨2, 3, by decide, by decide, by decide⟩

theorem bugs_pmf_no_bug (s : BugsState) (mf : ModifiedFile) :
    (bugs_process_modified_file s mf false).bug_fixing_changed_lines
      = s.bug_fixing_changed_lines := rfl

theorem bugs_fold_no_bug (mfs : List ModifiedFile) :
    ∀ s : BugsState,
      (mfs.foldl (fun s mf => bugs_process_modified_file s mf false)
        s).bug_fixing_changed_lines = s.bug_fixing_changed_lines := by
  induction mfs with
  | nil => intro s; rfl
  | cons mf rest ih => intro s; rw [List.foldl_cons, ih, bugs_pmf_no_bug]

/-- C8: a commit whose lower-cased message matches none of the enumerated bug
regexes is classified non-bug-fix, so processing it leaves every entry of
`bug_fixing_changed_lines` unchanged and contributes 0 to the snapshot's
`total_bug_lines` (`re_search` and `lower` model Python's `re.search` and
`str.lower`). -/
theorem bugs_non_matching_commit_no_bug_lines
    (re_search : String → String → Bool) (lower : String → String)
    (s : BugsState) (c : Commit)
    (h : ∀ pat ∈ bug_patterns, re_search pat (lower c.msg) = false) :
    (bugs_process_commit re_search lower s c).bug_fixing_changed_lines
        = s.bug_fixing_changed_lines ∧
    (bugs_get_metrics (bugs_process_commit re_search lower s c)).total_bug_lines
        = (bugs_get_metrics s).total_bug_lines := by
  have hbf : bugs_is_bug_fix re_search lower c = false := by
    simp only [bugs_is_bug_fix, List.any_eq_false]
    intro pat hpat
    simp [h pat hpat]
  have h1 : (bugs_process_commit re_search lower s c).bug_fixing_changed_lines
      = s.bug_fixing_changed_lines := by
    unfold bugs_process_commit
    rw [hbf]
    exact bugs_fold_no_bug c.modified_files s
  refine ⟨h1, ?_⟩
  show valuesSum (bugs_process_commit re_search lower s c).bug_fixing_changed_lines
    = valuesSum s.bug_fixing_changed_lines
  rw [h1]

theorem bugs_non_matching_commit_no_bug_lines_witness :
    (bugs_process_commit (fun _ _ => false) pyLower BugsState.init
        bugs_demo_commit).bug_fixing_changed_lines
      = BugsState.init.bug_fixing_changed_lines ∧
    (bugs_get_metrics (bugs_process_commit (fun _ _ => false) pyLower BugsState.init
        bugs_demo_commit)).total_bug_lines
      = (bugs_get_metrics BugsState.init).total_bug_lines :=
  bugs_non_matching_commit_no_bug_lines (fun _ _ => false) pyLower BugsState.init
    bugs_demo_commit (fun _ _ => rfl)

theorem mem_insertByTime (c x : CommitEntry) (l : List CommitEntry) :
    x ∈ insertByTime c l ↔ x = c ∨ x ∈ l := by
  induction l with
  | nil => simp [insertByTime]
  | cons d ds ih =>
      by_cases h : c.timestamp ≤ d.timestamp
      · simp [insertByTime, h]
      · simp [insertByTime, h, ih]
        tauto

theorem pairwise_insertByTime (c : CommitEntry) (l : List CommitEntry)
    (h : l.Pairwise fun a b => a.timestamp ≤ b.timestamp) :
    (insertByTime c l).Pairwise fun a b => a.timestamp ≤ b.timestamp := by
  induction l with
  | nil => simp [insertByTime]
  | cons d ds ih =>
      rcases List.pairwise_cons.mp h with ⟨hd, hds⟩
      by_cases hc : c.timestamp ≤ d.timestamp
      · rw [insertByTime, if_pos hc]
        refine List.pairwise_cons.mpr ⟨?_, h⟩
        intro x hx
        rcases List.mem_cons.mp hx with rfl | hx
        · exact hc
        · exact le_trans hc (hd x hx)
      · rw [insertByTime, if_neg hc]
        refine List.pairwise_cons.mpr ⟨?_, ih hds⟩
        intro x hx
        rcases (mem_insertByTime c x ds).mp hx with rfl | hx
        · omega
        · exact hd x hx

theorem perm_insertByTime (c : CommitEntry) (l : List CommitEntry) :
    List.Perm (insertByTime c l) (c :: l) := by
  induction l with
  | nil => exact List.Perm.refl _
  | cons d ds ih =>
      by_cases hc : c.timestamp ≤ d.timestamp
      · rw [insertByTime, if_pos hc]
      · rw [insertByTime, if_neg hc]
        exact (ih.cons d).trans (List.Perm.swap c d ds)

theorem sortByTime_pairwise (l : List CommitEntry) :
    (sortByTime l).Pairwise fun a b => a.timestamp ≤ b.timestamp := by
  induction l with
  | nil => simp [sortByTime]
  | cons c cs ih => exact pairwise_insertByTime c (sortByTime cs) ih

theorem sortByTime_length (l : List CommitEntry) : (sortByTime l).length = l.length := by
  induction l with
  | nil => rfl
  | cons c cs ih =>
      rw [sortByTime, (perm_insertByTime c (sortByTime cs)).length_eq, List.length_cons, ih,
        List.length_cons]

theorem buildSessions_counts (l : List CommitEntry) :
    ∀ cur : Option CurSession,
      sumSessionCommits (buildSessions cur l)
        = (match cur with | none => 0 | some c => c.commits.length) + l.length := by
  induction l with
  | nil =>
      intro cur
      cases cur <;> simp [buildSessions, sumSessionCommits, finalizeSession]
  | cons c rest ih =>
      intro cur
      cases cur with
      | none =>
          rw [buildSessions, ih]
          simp [newSession]
          omega
      | some cur =>
          rw [buildSessions]
          by_cases hg : c.timestamp - cur.stop ≤ 120
          · rw [if_pos hg, ih]
            simp [extendSession]
            omega
          · rw [if_neg hg]
            show sumSessionCommits (finalizeSession cur :: buildSessions (some (newSession c)) rest) = _
            rw [sumSessionCommits, List.map_cons, List.sum_cons]
            have := ih (some (newSession c))
            rw [sumSessionCommits] at this
            rw [this]
            simp [finalizeSession, newSession]
            omega

theorem buildSessions_durations (l : List CommitEntry)
    (hl : l.Pairwise fun a b => a.timestamp ≤ b.timestamp) :
    ∀ cur : Option CurSession,
      (match cur with
       | none => True
       | some cur => cur.start + 30 ≤ cur.stop ∧ ∀ x ∈ l, cur.stop ≤ x.timestamp) →
      ∀ sess ∈ buildSessions cur l, 45 ≤ sess.duration := by
  induction l with
  | nil =>
      intro cur hinv sess hs
      cases cur with
      | none => simp [buildSessions] at hs
      | some cur =>
          simp only [buildSessions, List.mem_singleton] at hs
          subst hs
          simp only [finalizeSession]
          omega
  | cons c rest ih =>
      rcases List.pairwise_cons.mp hl with ⟨hc, hrest⟩
      intro cur hinv sess hs
      cases cur with
      | none =>
          rw [buildSessions] at hs
          refine ih hrest (some (newSession c)) ?_ sess hs
          exact ⟨by simp only [newSession]; omega, by simpa [newSession] using hc⟩
      | some cur =>
          rw [buildSessions] at hs
          obtain ⟨hdur, hall⟩ := hinv
          by_cases hg : c.timestamp - cur.stop ≤ 120
          · rw [if_pos hg] at hs
            refine ih hrest (some (extendSession cur c)) ?_ sess hs
            have hct : cur.stop ≤ c.timestamp := hall c (List.mem_cons_self c rest)
            exact ⟨by simp only [extendSession]; omega, by simpa [extendSession] using hc⟩
          · rw [if_neg hg, List.mem_cons] at hs
            rcases hs with rfl | hs
            · simp only [finalizeSession]
              omega
            · refine ih hrest (some (newSession c)) ?_ sess hs
              exact ⟨by simp only [newSession]; omega, by simpa [newSession] using hc⟩

theorem weekly_counts_fold (week_key : Int → String) (l : List Session) :
    ∀ acc : List (String × Nat),
      valuesSum (l.foldl
        (fun acc s => updateEntry acc (week_key s.start) (· + s.commits.length) 0) acc)
        = valuesSum acc + sumSessionCommits l := by
  induction l with
  | nil => intro acc; simp [sumSessionCommits]
  | cons s rest ih =>
      intro acc
      rw [List.foldl_cons, ih, valuesSum_updateEntry_add]
      simp [sumSessionCommits]
      omega

/-- C9: every session built by `calculate_sessions` carries the 30-minute
pre-padding and 15-minute post-padding, so its duration is at least 45
minutes; hence the `duration < min_session_length (30)` filter of
`_process_sessions_to_weekly_stats` discards nothing, and the weekly
`commits` counters across all buckets account for every recorded commit
exactly once. -/
theorem sessions_min_duration_and_partition (week_key : Int → String)
    (commits : List CommitEntry) :
    (∀ sess ∈ calculate_sessions commits, 45 ≤ sess.duration) ∧
    sessions_kept (calculate_sessions commits) = calculate_sessions commits ∧
    valuesSum (weekly_commit_counts week_key (calculate_sessions commits))
      = commits.length := by
  have hdur : ∀ sess ∈ calculate_sessions commits, 45 ≤ sess.duration := by
    intro sess hs
    exact buildSessions_durations (sortByTime commits) (sortByTime_pairwise commits)
      none trivial sess hs
  have hkept : sessions_kept (calculate_sessions commits) = calculate_sessions commits := by
    rw [sessions_kept, List.filter_eq_self]
    intro s hs
    have := hdur s hs
    simp
    omega
  refine ⟨hdur, hkept, ?_⟩
  rw [weekly_commit_counts, hkept, weekly_counts_fold]
  have := buildSessions_counts (sortByTime commits) none
  rw [calculate_sessions, this]
  simp [valuesSum, sortByTime_length]

/-- A concrete two-commit timeline (45 minutes apart): one 90-minute session,
nothing filtered, both commits counted once. -/
theorem sessions_min_duration_and_partition_witness :
    (∀ sess ∈ calculate_sessions [⟨0, 5⟩, ⟨45, 5⟩], 45 ≤ sess.duration) ∧
    sessions_kept (calculate_sessions [⟨0, 5⟩, ⟨45, 5⟩])
      = calculate_sessions [⟨0, 5⟩, ⟨45, 5⟩] ∧
    valuesSum (weekly_commit_counts (fun _ => "wk") (calculate_sessions [⟨0, 5⟩, ⟨45, 5⟩]))
      = [(⟨0, 5⟩ : CommitEntry), ⟨45, 5⟩].length :=
  sessions_min_duration_and_partition (fun _ => "wk") [⟨0, 5⟩, ⟨45, 5⟩]

/-- C10: the scheduler's queue entries are `(-priority, job)` tuples with
`Job` a dataclass lacking `__lt__`.  When all simultaneously queued jobs have
pairwise distinct priorities, every tuple comparison resolves on the integer
and `heappush`/`heappop` never raise; but submitting two jobs with equal
priority makes the push comparison fall through to `Job < Job`, raising
`TypeError` (`Except.error ()`), as the concrete third conjunct shows. -/
theorem heap_ops_distinct_priorities_total_and_tie_raises :
    (∀ (heap : List HeapEntry) (item : HeapEntry), distinctPriorities (item :: heap) →
      ∃ h2, heappush heap item = Except.ok h2) ∧
    (∀ heap : List HeapEntry, distinctPriorities heap → heappop heap ≠ Except.error ()) ∧
    heappush [submit_entry ⟨"repo_a", 5⟩] (submit_entry ⟨"repo_b", 5⟩)
      = Except.error () :=
  ⟨heappush_ok, heappop_ok, rfl⟩

theorem heap_ops_distinct_priorities_total_witness :
    (∃ h2, heappush [submit_entry ⟨"repo_a", 5⟩] (submit_entry ⟨"repo_c", 7⟩)
      = Except.ok h2) ∧
    heappop [submit_entry ⟨"repo_a", 5⟩, submit_entry ⟨"repo_c", 7⟩]
      ≠ Except.error () :=
  ⟨heap_ops_distinct_priorities_total_and_tie_raises.1
      [submit_entry ⟨"repo_a", 5⟩] (submit_entry ⟨"repo_c", 7⟩)
      (by unfold distinctPriorities; decide),
   heap_ops_distinct_priorities_total_and_tie_raises.2.1
      [submit_entry ⟨"repo_a", 5⟩, submit_entry ⟨"repo_c", 7⟩]
      (by unfold distinctPriorities; decide)⟩

theorem week_dispatch_author_date_unique_witness :
    (∃ r ∈ wk_ranges_demo, r.2.2 = "w1" ∧ r.1 ≤ cWeekSplit.author_date
      ∧ cWeekSplit.author_date ≤ r.2.1) ∧
    valuesSum (weekly_dispatch wk_ranges_demo [] cWeekSplit)
      = valuesSum ([] : List (String × Nat))
        + (if (find_week_label wk_ranges_demo cWeekSplit.author_date).isSome then 1 else 0) :=
  ⟨(week_dispatch_author_date_unique wk_ranges_demo [] cWeekSplit).1 "w1" (by decide),
   (week_dispatch_author_date_unique wk_ranges_demo [] cWeekSplit).2⟩
